import Mathlib

/-!
Verification of the tree-data synchronization and caching layer of the
TadaCloud DNS manager (CloudflareTreeDataProvider) and its paged API
fetcher (CloudflareApiService), embedded shallowly in Lean.

Collaborators (secret storage, remote API, user configuration) are
modelled as an explicit environment of `Except`-valued calls; a thrown
JS exception is an `Except.error` carrying its message, and every
`try`/`catch` of the source appears as an explicit `match` on such a
value.  JS `Map`/`Set` objects are association lists / string lists
with the usual `get`/`set`/`delete`/`has` operations.
-/

namespace TadaCloud

/-- Zone model (src/models/Zone.ts); `recordCount?` is an `Option`.
The status union type is kept as its wire string. -/
structure Zone where
  id : String
  name : String
  status : String
  paused : Bool
  accountId : String
  recordCount : Option Nat := none
deriving Repr, DecidableEq

/-- DNS record model (src/models/DnsRecord.ts); the 21-member record-type
union is kept as its wire string. -/
structure DnsRecord where
  id : String
  zoneId : String
  accountId : String
  type : String
  name : String
  content : String
  ttl : Nat
  proxied : Bool
  proxiable : Bool
  priority : Option Nat := none
  comment : Option String := none
  createdOn : Option String := none
  modifiedOn : Option String := none
deriving Repr, DecidableEq

/-- Role model (src/models/Member.ts), detailed permission breakdown omitted
as it is never read by the provider. -/
structure Role where
  id : String
  name : String
  description : String
deriving Repr, DecidableEq

/-- Resource scope of a member policy (src/models/Member.ts). -/
structure ResourceScope where
  key : String
  zoneId : Option String := none
deriving Repr, DecidableEq

/-- Permission group of a member policy (src/models/Member.ts). -/
structure PermissionGroup where
  id : String
  name : String
deriving Repr, DecidableEq

/-- Resource group of a member policy (src/models/Member.ts). -/
structure ResourceGroup where
  id : String
  name : String
  scope : List ResourceScope
deriving Repr, DecidableEq

/-- Member policy (src/models/Member.ts). -/
structure MemberPolicy where
  id : String
  access : String
  permissionGroups : List PermissionGroup
  resourceGroups : List ResourceGroup
deriving Repr, DecidableEq

/-- Member model (src/models/Member.ts). -/
structure Member where
  id : String
  email : String
  firstName : Option String := none
  lastName : Option String := none
  status : String
  twoFactorEnabled : Bool
  apiAccessEnabled : Option Bool := none
  roles : List Role := []
  policies : List MemberPolicy := []
deriving Repr, DecidableEq

/-- Account model (src/models/Account.ts). -/
structure Account where
  id : String
  name : String
  cloudflareAccountId : String
deriving Repr, DecidableEq

/-- Account together with its API token (src/models/Account.ts). -/
structure AccountWithToken where
  id : String
  name : String
  cloudflareAccountId : String
  token : String
deriving Repr, DecidableEq

/-- The union of tree item classes of src/providers/TreeItems.ts, as a sum
type; each constructor carries the data its class constructor stores. -/
inductive TreeItemType where
  | account (account : Account)
  | zone (zone : Zone) (accountId : String)
  | dnsRecord (record : DnsRecord)
  | loading
  | error (message : String)
  | empty (message : String)
  | teamMembers (accountId : String) (cloudflareAccountId : String) (memberCount : Nat)
  | member (m : Member) (accountId : String) (cloudflareAccountId : String)
      (zoneMap : List (String × String))
deriving Repr, DecidableEq

/-- Whether a tree item is an `ErrorTreeItem`. -/
def TreeItemType.isErrorItem : TreeItemType → Bool
  | .error _ => true
  | _ => false

/-! ### JS `Map` / `Set` operations, on association lists / string lists -/

/-- `Map.has`. -/
def mapHas (m : List (String × α)) (k : String) : Bool :=
  m.any (fun p => p.1 == k)

/-- `Map.get`: the value of the first entry with the key (`none` when the
key is absent). -/
def mapGet : List (String × α) → String → Option α
  | [], _ => none
  | p :: m, k => if p.1 == k then some p.2 else mapGet m k

/-- `Map.set`: replace the entry in place when the key exists, else append. -/
def mapSet (m : List (String × α)) (k : String) (v : α) : List (String × α) :=
  if m.any (fun p => p.1 == k) then
    m.map (fun p => if p.1 == k then (k, v) else p)
  else m ++ [(k, v)]

/-- `Map.delete`. -/
def mapDelete (m : List (String × α)) (k : String) : List (String × α) :=
  m.filter (fun p => p.1 != k)

/-- `Set.add`. -/
def setAdd (s : List String) (k : String) : List String :=
  if s.contains k then s else s ++ [k]

/-- `Set.delete`. -/
def setDelete (s : List String) (k : String) : List String :=
  s.filter (fun x => x != k)

/-- `String.prototype.startsWith`, computed on the character list. -/
def strStartsWith (s pre : String) : Bool :=
  pre.data.isPrefixOf s.data

/-! ### Provider state and collaborator environment -/

/-- The mutable fields of `CloudflareTreeDataProvider`: three cache maps and
three loading-guard sets. -/
structure ProviderState where
  zonesCache : List (String × List Zone) := []
  recordsCache : List (String × List DnsRecord) := []
  membersCache : List (String × List Member) := []
  loadingAccounts : List String := []
  loadingZones : List String := []
  loadingMembers : List String := []
deriving Repr, DecidableEq

/-- The collaborators the provider calls, as pure outcome functions; an
`Except.error` is a thrown exception carrying its message.
`getAccountWithToken` returning `Except.ok none` is the `undefined` result
(token not found).  API services are constructed from a token and an
account id, so the fetchers take both explicitly.  `showRecordCount` and
`visibleTypes` are the two user-configuration reads. -/
structure Env where
  getAccounts : Except String (List Account)
  getAccountWithToken : String → Except String (Option AccountWithToken)
  getZones : String → String → Except String (List Zone)
  getDnsRecords : String → String → String → Except String (List DnsRecord)
  getDnsRecordCount : String → String → String → Except String Nat
  getMembers : String → String → Except String (List Member)
  showRecordCount : Bool
  visibleTypes : List String

/-! ### Refresh operations (CloudflareTreeDataProvider.refresh*) -/

/-- `refresh()`: clear the three caches (the change event carries no state). -/
def refresh (st : ProviderState) : ProviderState :=
  { st with zonesCache := [], recordsCache := [], membersCache := [] }

/-- `refreshAccount(accountId)`: drop the zones and members entries and every
records entry whose key starts with `accountId`. -/
def refreshAccount (st : ProviderState) (accountId : String) : ProviderState :=
  { st with
    zonesCache := mapDelete st.zonesCache accountId
    membersCache := mapDelete st.membersCache accountId
    recordsCache := st.recordsCache.filter (fun p => !(strStartsWith p.1 accountId)) }

/-- `refreshZone(accountId, zoneId)`: drop the one records entry. -/
def refreshZone (st : ProviderState) (accountId zoneId : String) : ProviderState :=
  { st with recordsCache := mapDelete st.recordsCache (accountId ++ ":" ++ zoneId) }

/-! ### filterAndSortRecords -/

/-- Lexicographic comparison of two character lists by codepoint. -/
def charListCompare : List Char → List Char → Ordering
  | [], [] => .eq
  | [], _ :: _ => .lt
  | _ :: _, [] => .gt
  | c :: cs, d :: ds =>
    if c < d then .lt else if d < c then .gt else charListCompare cs ds

/-- `String.prototype.localeCompare`, modelled as the lexicographic
(codepoint) comparison of the two strings. -/
def localeCompare (a b : String) : Ordering :=
  charListCompare a.data b.data

/-- The comparator passed to `filtered.sort`: by `type`, then by `name`. -/
def recordCmp (a b : DnsRecord) : Ordering :=
  match localeCompare a.type b.type with
  | .eq => localeCompare a.name b.name
  | o => o

/-- The non-strict order induced by `recordCmp` (comparator result not
positive), under which a stable sort realises `Array.prototype.sort`. -/
def recordLE (a b : DnsRecord) : Prop := recordCmp a b ≠ .gt

instance : DecidableRel recordLE := fun a b =>
  inferInstanceAs (Decidable (recordCmp a b ≠ .gt))

/-- The record-list part of `filterAndSortRecords`: keep the records whose
type is in the allow-list, then sort stably by the comparator. -/
def filterSortCore (visibleTypes : List String) (records : List DnsRecord) :
    List DnsRecord :=
  (records.filter (fun r => visibleTypes.contains r.type)).insertionSort recordLE

/-- `filterAndSortRecords`: filter and sort, then wrap each record in a
`DnsRecordTreeItem`. -/
def filterAndSortRecords (env : Env) (records : List DnsRecord) :
    List TreeItemType :=
  (filterSortCore env.visibleTypes records).map TreeItemType.dnsRecord

/-! ### getChildren and the per-level loaders -/

/-- `getAccountItems`: list accounts from storage; empty placeholder when
there are none; error placeholder when the storage call throws. -/
def getAccountItems (env : Env) : Except String (List TreeItemType) :=
  match env.getAccounts with
  | .error _ => .ok [.error "Failed to load accounts"]
  | .ok accounts =>
    if accounts.length = 0 then
      .ok [.empty "No accounts configured. Click + to add one."]
    else
      .ok (accounts.map TreeItemType.account)

/-- Per-zone record-count enrichment: `try getDnsRecordCount catch undefined`
(one task of the `Promise.all` fan-out of `getZoneItems`). -/
def enrichZone (env : Env) (token cfAccountId : String) (z : Zone) : Zone :=
  { z with recordCount := (env.getDnsRecordCount token cfAccountId z.id).toOption }

/-- The `Promise.all` record-count fan-out of `getZoneItems`. -/
def enrichZones (env : Env) (token cfAccountId : String) (zones : List Zone) :
    List Zone :=
  zones.map (enrichZone env token cfAccountId)

/-- The body of the `try` block of `getZoneItems`, from setting the loading
guard onward; an `Except.error` result is an exception reaching the
enclosing `catch`. -/
def getZoneItemsTry (env : Env) (account : Account) (st : ProviderState) :
    Except String (List TreeItemType) × ProviderState :=
  match env.getAccountWithToken account.id with
  | .error e => (.error e, st)
  | .ok none => (.ok [.error "Token not found"], st)
  | .ok (some accountWithToken) =>
    match env.getZones accountWithToken.token account.cloudflareAccountId with
    | .error e => (.error e, st)
    | .ok zonesRaw =>
      let zones :=
        if env.showRecordCount then
          enrichZones env accountWithToken.token account.cloudflareAccountId zonesRaw
        else zonesRaw
      let (memberCount, st) :=
        match env.getMembers accountWithToken.token account.cloudflareAccountId with
        | .ok members =>
          (members.length,
           { st with membersCache := mapSet st.membersCache account.id members })
        | .error _ => (0, st)
      let st := { st with
        zonesCache := mapSet st.zonesCache account.id zones
        loadingAccounts := setDelete st.loadingAccounts account.id }
      let items :=
        (if zones.length = 0 then [TreeItemType.empty "No domains found"]
         else zones.map (fun z => TreeItemType.zone z account.id))
        ++ [TreeItemType.teamMembers account.id account.cloudflareAccountId memberCount]
      (.ok items, st)

/-- `getZoneItems`: cache hit, loading guard, or guarded load with `catch`. -/
def getZoneItems (env : Env) (st : ProviderState) (account : Account) :
    Except String (List TreeItemType) × ProviderState :=
  if mapHas st.zonesCache account.id then
    let zones := (mapGet st.zonesCache account.id).getD []
    let zoneItems := zones.map (fun z => TreeItemType.zone z account.id)
    let memberCount := ((mapGet st.membersCache account.id).map List.length).getD 0
    (.ok (zoneItems ++
      [TreeItemType.teamMembers account.id account.cloudflareAccountId memberCount]), st)
  else if st.loadingAccounts.contains account.id then
    (.ok [.loading], st)
  else
    let st := { st with loadingAccounts := setAdd st.loadingAccounts account.id }
    match getZoneItemsTry env account st with
    | (.ok items, st) => (.ok items, st)
    | (.error e, st) =>
      (.ok [.error e],
       { st with loadingAccounts := setDelete st.loadingAccounts account.id })

/-- The body of the `try` block of `getDnsRecordItems`. -/
def getDnsRecordItemsTry (env : Env) (zone : Zone) (accountId cacheKey : String)
    (st : ProviderState) : Except String (List TreeItemType) × ProviderState :=
  match env.getAccountWithToken accountId with
  | .error e => (.error e, st)
  | .ok none => (.ok [.error "Token not found"], st)
  | .ok (some accountWithToken) =>
    match env.getDnsRecords accountWithToken.token accountId zone.id with
    | .error e => (.error e, st)
    | .ok records =>
      let st := { st with
        recordsCache := mapSet st.recordsCache cacheKey records
        loadingZones := setDelete st.loadingZones cacheKey }
      if records.length = 0 then (.ok [.empty "No DNS records"], st)
      else (.ok (filterAndSortRecords env records), st)

/-- `getDnsRecordItems`: cache hit, loading guard, or guarded load. -/
def getDnsRecordItems (env : Env) (st : ProviderState) (zone : Zone)
    (accountId : String) : Except String (List TreeItemType) × ProviderState :=
  let cacheKey := accountId ++ ":" ++ zone.id
  if mapHas st.recordsCache cacheKey then
    let records := (mapGet st.recordsCache cacheKey).getD []
    (.ok (filterAndSortRecords env records), st)
  else if st.loadingZones.contains cacheKey then
    (.ok [.loading], st)
  else
    let st := { st with loadingZones := setAdd st.loadingZones cacheKey }
    match getDnsRecordItemsTry env zone accountId cacheKey st with
    | (.ok items, st) => (.ok items, st)
    | (.error e, st) =>
      (.ok [.error e],
       { st with loadingZones := setDelete st.loadingZones cacheKey })

/-- The `zoneMap` built at the top of `getMemberItems` from the cached zones
of the account, in cache order. -/
def buildZoneMap (st : ProviderState) (accountId : String) :
    List (String × String) :=
  ((mapGet st.zonesCache accountId).getD []).map (fun z => (z.id, z.name))

/-- The body of the `try` block of `getMemberItems`. -/
def getMemberItemsTry (env : Env) (accountId cloudflareAccountId : String)
    (zoneMap : List (String × String)) (st : ProviderState) :
    Except String (List TreeItemType) × ProviderState :=
  match env.getAccountWithToken accountId with
  | .error e => (.error e, st)
  | .ok none => (.ok [.error "Token not found"], st)
  | .ok (some accountWithToken) =>
    match env.getMembers accountWithToken.token cloudflareAccountId with
    | .error e => (.error e, st)
    | .ok members =>
      let st := { st with
        membersCache := mapSet st.membersCache accountId members
        loadingMembers := setDelete st.loadingMembers accountId }
      if members.length = 0 then (.ok [.empty "No team members"], st)
      else
        (.ok (members.map (fun m =>
          TreeItemType.member m accountId cloudflareAccountId zoneMap)), st)

/-- `getMemberItems`: cache hit, loading guard, or guarded load. -/
def getMemberItems (env : Env) (st : ProviderState)
    (accountId cloudflareAccountId : String) :
    Except String (List TreeItemType) × ProviderState :=
  let zoneMap := buildZoneMap st accountId
  if mapHas st.membersCache accountId then
    let members := (mapGet st.membersCache accountId).getD []
    if members.length = 0 then (.ok [.empty "No team members"], st)
    else
      (.ok (members.map (fun m =>
        TreeItemType.member m accountId cloudflareAccountId zoneMap)), st)
  else if st.loadingMembers.contains accountId then
    (.ok [.loading], st)
  else
    let st := { st with loadingMembers := setAdd st.loadingMembers accountId }
    match getMemberItemsTry env accountId cloudflareAccountId zoneMap st with
    | (.ok items, st) => (.ok items, st)
    | (.error e, st) =>
      (.ok [.error e],
       { st with loadingMembers := setDelete st.loadingMembers accountId })

/-- `getChildren`: dispatch on the element's tree item class; leaf item
kinds have no children. -/
def getChildren (env : Env) (st : ProviderState) (element : Option TreeItemType) :
    Except String (List TreeItemType) × ProviderState :=
  match element with
  | none => (getAccountItems env, st)
  | some (.account account) => getZoneItems env st account
  | some (.zone zone accountId) => getDnsRecordItems env st zone accountId
  | some (.teamMembers accountId cloudflareAccountId _) =>
    getMemberItems env st accountId cloudflareAccountId
  | some _ => (.ok [], st)

/-! ### Paged API fetcher (CloudflareApiService.getZones / getDnsRecords) -/

/-- The `result_info` block of a Cloudflare API response. -/
structure ResultInfo where
  page : Nat
  per_page : Nat
  total_count : Nat
  total_pages : Nat
deriving Repr, DecidableEq

/-- One page response: `{success, errors[], result, result_info?}`; each
error is a `(code, message)` pair. -/
structure PageResponse (α : Type) where
  success : Bool
  errors : List (Nat × String)
  result : List α
  result_info : Option ResultInfo
deriving Repr, DecidableEq

/-- Wire form of a zone as parsed by `getZones` (the nested `account.id`
field is carried but never used by the mapping). -/
structure ZoneWire where
  id : String
  name : String
  status : String
  paused : Bool
  account_id : String
deriving Repr, DecidableEq

/-- The zone built from a wire zone inside the `getZones` loop. -/
def zoneOfWire (accountId : String) (z : ZoneWire) : Zone :=
  { id := z.id, name := z.name, status := z.status, paused := z.paused,
    accountId := accountId, recordCount := none }

/-- Wire form of a DNS record as parsed by `getDnsRecords`. -/
structure DnsRecordWire where
  id : String
  type : String
  name : String
  content : String
  ttl : Nat
  proxied : Bool
  proxiable : Bool
  priority : Option Nat
  comment : Option String
  created_on : Option String
  modified_on : Option String
deriving Repr, DecidableEq

/-- The record built from a wire record inside the `getDnsRecords` loop. -/
def recordOfWire (accountId zoneId : String) (r : DnsRecordWire) : DnsRecord :=
  { id := r.id, zoneId := zoneId, accountId := accountId, type := r.type,
    name := r.name, content := r.content, ttl := r.ttl, proxied := r.proxied,
    proxiable := r.proxiable, priority := r.priority, comment := r.comment,
    createdOn := r.created_on, modifiedOn := r.modified_on }

/-- The shared `do … while (page <= totalPages)` pagination loop of
`getZones` and `getDnsRecords`: fetch the current page, throw the joined
error messages on `success:false`, append the mapped items, take the
server-reported `total_pages` when `result_info` is present (else keep the
current total, initially 1), and continue with the next page number while
it does not exceed the total.  The extra `fuel` argument only bounds the
unbounded source loop; every theorem supplies enough of it. -/
def fetchPages (resp : Nat → PageResponse α) (f : α → β) :
    Nat → Nat → Nat → List β → Except String (List β)
  | 0, _, _, _ => .error "out of fuel"
  | fuel + 1, page, totalPages, acc =>
    let d := resp page
    if d.success then
      let acc := acc ++ d.result.map f
      let totalPages :=
        match d.result_info with
        | some ri => ri.total_pages
        | none => totalPages
      if page + 1 ≤ totalPages then fetchPages resp f fuel (page + 1) totalPages acc
      else .ok acc
    else .error (String.intercalate ", " (d.errors.map Prod.snd))

/-- `CloudflareApiService.getZones`, over a page-indexed server model. -/
def apiGetZones (resp : Nat → PageResponse ZoneWire) (accountId : String)
    (fuel : Nat) : Except String (List Zone) :=
  fetchPages resp (zoneOfWire accountId) fuel 1 1 []

/-- `CloudflareApiService.getDnsRecords`, over a page-indexed server model. -/
def apiGetDnsRecords (resp : Nat → PageResponse DnsRecordWire)
    (accountId zoneId : String) (fuel : Nat) : Except String (List DnsRecord) :=
  fetchPages resp (recordOfWire accountId zoneId) fuel 1 1 []

/-! ### Interleaving semantics of the provider

The provider runs on a single-threaded event loop: each `async` method is a
sequence of atomic synchronous segments separated by `await` suspension
points.  `SysState` holds the provider state together with the suspended
continuations (one `PendingTask` per in-flight load, recording its resume
point and the locals it has computed); `Step` fires one atomic segment,
choosing each collaborator outcome nondeterministically at the resume, and
`Reachable` is the set of states observable at suspension points, starting
from the freshly constructed provider. -/

/-- A suspended continuation of one of the three loader methods:
`gzi…` = `getZoneItems`, `gdri…` = `getDnsRecordItems`,
`gmi…` = `getMemberItems`; the second name component is the `await` the
task is suspended on. -/
inductive PendingTask where
  | gziToken (account : Account)
  | gziZones (account : Account) (token : String)
  | gziCounts (account : Account) (token : String) (zones : List Zone)
  | gziMembers (account : Account) (token : String) (zones : List Zone)
  | gdriToken (zone : Zone) (accountId : String)
  | gdriRecords (zone : Zone) (accountId : String) (token : String)
  | gmiToken (accountId : String) (cloudflareAccountId : String)
  | gmiMembers (accountId : String) (cloudflareAccountId : String) (token : String)
deriving Repr, DecidableEq

/-- Provider state plus suspended continuations. -/
structure SysState where
  prov : ProviderState
  tasks : List PendingTask
deriving Repr, DecidableEq

/-- The state of a freshly constructed provider: empty caches and guard
sets, nothing in flight. -/
def SysState.init : SysState := ⟨{}, []⟩

/-- One atomic synchronous segment of the provider, or one externally
triggered refresh.  Start segments require the cache-miss and guard checks
the source performs synchronously before its first `await`; a resumed
segment consumes its task, applies the source's state mutations for the
chosen collaborator outcome, and suspends again where the source awaits. -/
inductive Step : SysState → SysState → Prop where
  | gziStart (p : ProviderState) (ts : List PendingTask) (account : Account)
      (hc : mapHas p.zonesCache account.id = false)
      (hl : p.loadingAccounts.contains account.id = false) :
      Step ⟨p, ts⟩
        ⟨{ p with loadingAccounts := setAdd p.loadingAccounts account.id },
          PendingTask.gziToken account :: ts⟩
  | gziTokenThrow (p : ProviderState) (l₁ l₂ : List PendingTask) (account : Account) :
      Step ⟨p, l₁ ++ PendingTask.gziToken account :: l₂⟩
        ⟨{ p with loadingAccounts := setDelete p.loadingAccounts account.id }, l₁ ++ l₂⟩
  | gziTokenNone (p : ProviderState) (l₁ l₂ : List PendingTask) (account : Account) :
      Step ⟨p, l₁ ++ PendingTask.gziToken account :: l₂⟩ ⟨p, l₁ ++ l₂⟩
  | gziTokenSome (p : ProviderState) (l₁ l₂ : List PendingTask) (account : Account)
      (token : String) :
      Step ⟨p, l₁ ++ PendingTask.gziToken account :: l₂⟩
        ⟨p, l₁ ++ PendingTask.gziZones account token :: l₂⟩
  | gziZonesErr (p : ProviderState) (l₁ l₂ : List PendingTask) (account : Account)
      (token : String) :
      Step ⟨p, l₁ ++ PendingTask.gziZones account token :: l₂⟩
        ⟨{ p with loadingAccounts := setDelete p.loadingAccounts account.id }, l₁ ++ l₂⟩
  | gziZonesOkCounts (p : ProviderState) (l₁ l₂ : List PendingTask) (account : Account)
      (token : String) (zones : List Zone) :
      Step ⟨p, l₁ ++ PendingTask.gziZones account token :: l₂⟩
        ⟨p, l₁ ++ PendingTask.gziCounts account token zones :: l₂⟩
  | gziZonesOkNoCounts (p : ProviderState) (l₁ l₂ : List PendingTask) (account : Account)
      (token : String) (zones : List Zone) :
      Step ⟨p, l₁ ++ PendingTask.gziZones account token :: l₂⟩
        ⟨p, l₁ ++ PendingTask.gziMembers account token zones :: l₂⟩
  | gziCountsDone (p : ProviderState) (l₁ l₂ : List PendingTask) (account : Account)
      (token : String) (zones : List Zone) (cnt : String → Option Nat) :
      Step ⟨p, l₁ ++ PendingTask.gziCounts account token zones :: l₂⟩
        ⟨p, l₁ ++ PendingTask.gziMembers account token
            (zones.map (fun z => { z with recordCount := cnt z.id })) :: l₂⟩
  | gziMembersOk (p : ProviderState) (l₁ l₂ : List PendingTask) (account : Account)
      (token : String) (zones : List Zone) (members : List Member) :
      Step ⟨p, l₁ ++ PendingTask.gziMembers account token zones :: l₂⟩
        ⟨{ p with membersCache := mapSet p.membersCache account.id members,
                  zonesCache := mapSet p.zonesCache account.id zones,
                  loadingAccounts := setDelete p.loadingAccounts account.id }, l₁ ++ l₂⟩
  | gziMembersErr (p : ProviderState) (l₁ l₂ : List PendingTask) (account : Account)
      (token : String) (zones : List Zone) :
      Step ⟨p, l₁ ++ PendingTask.gziMembers account token zones :: l₂⟩
        ⟨{ p with zonesCache := mapSet p.zonesCache account.id zones,
                  loadingAccounts := setDelete p.loadingAccounts account.id }, l₁ ++ l₂⟩
  | gdriStart (p : ProviderState) (ts : List PendingTask) (zone : Zone) (accountId : String)
      (hc : mapHas p.recordsCache (accountId ++ ":" ++ zone.id) = false)
      (hl : p.loadingZones.contains (accountId ++ ":" ++ zone.id) = false) :
      Step ⟨p, ts⟩
        ⟨{ p with loadingZones := setAdd p.loadingZones (accountId ++ ":" ++ zone.id) },
          PendingTask.gdriToken zone accountId :: ts⟩
  | gdriTokenThrow (p : ProviderState) (l₁ l₂ : List PendingTask) (zone : Zone)
      (accountId : String) :
      Step ⟨p, l₁ ++ PendingTask.gdriToken zone accountId :: l₂⟩
        ⟨{ p with loadingZones := setDelete p.loadingZones (accountId ++ ":" ++ zone.id) },
          l₁ ++ l₂⟩
  | gdriTokenNone (p : ProviderState) (l₁ l₂ : List PendingTask) (zone : Zone)
      (accountId : String) :
      Step ⟨p, l₁ ++ PendingTask.gdriToken zone accountId :: l₂⟩ ⟨p, l₁ ++ l₂⟩
  | gdriTokenSome (p : ProviderState) (l₁ l₂ : List PendingTask) (zone : Zone)
      (accountId : String) (token : String) :
      Step ⟨p, l₁ ++ PendingTask.gdriToken zone accountId :: l₂⟩
        ⟨p, l₁ ++ PendingTask.gdriRecords zone accountId token :: l₂⟩
  | gdriRecordsErr (p : ProviderState) (l₁ l₂ : List PendingTask) (zone : Zone)
      (accountId : String) (token : String) :
      Step ⟨p, l₁ ++ PendingTask.gdriRecords zone accountId token :: l₂⟩
        ⟨{ p with loadingZones := setDelete p.loadingZones (accountId ++ ":" ++ zone.id) },
          l₁ ++ l₂⟩
  | gdriRecordsOk (p : ProviderState) (l₁ l₂ : List PendingTask) (zone : Zone)
      (accountId : String) (token : String) (records : List DnsRecord) :
      Step ⟨p, l₁ ++ PendingTask.gdriRecords zone accountId token :: l₂⟩
        ⟨{ p with
            recordsCache := mapSet p.recordsCache (accountId ++ ":" ++ zone.id) records,
            loadingZones := setDelete p.loadingZones (accountId ++ ":" ++ zone.id) },
          l₁ ++ l₂⟩
  | gmiStart (p : ProviderState) (ts : List PendingTask)
      (accountId cloudflareAccountId : String)
      (hc : mapHas p.membersCache accountId = false)
      (hl : p.loadingMembers.contains accountId = false) :
      Step ⟨p, ts⟩
        ⟨{ p with loadingMembers := setAdd p.loadingMembers accountId },
          PendingTask.gmiToken accountId cloudflareAccountId :: ts⟩
  | gmiTokenThrow (p : ProviderState) (l₁ l₂ : List PendingTask)
      (accountId cloudflareAccountId : String) :
      Step ⟨p, l₁ ++ PendingTask.gmiToken accountId cloudflareAccountId :: l₂⟩
        ⟨{ p with loadingMembers := setDelete p.loadingMembers accountId }, l₁ ++ l₂⟩
  | gmiTokenNone (p : ProviderState) (l₁ l₂ : List PendingTask)
      (accountId cloudflareAccountId : String) :
      Step ⟨p, l₁ ++ PendingTask.gmiToken accountId cloudflareAccountId :: l₂⟩
        ⟨p, l₁ ++ l₂⟩
  | gmiTokenSome (p : ProviderState) (l₁ l₂ : List PendingTask)
      (accountId cloudflareAccountId : String) (token : String) :
      Step ⟨p, l₁ ++ PendingTask.gmiToken accountId cloudflareAccountId :: l₂⟩
        ⟨p, l₁ ++ PendingTask.gmiMembers accountId cloudflareAccountId token :: l₂⟩
  | gmiMembersErr (p : ProviderState) (l₁ l₂ : List PendingTask)
      (accountId cloudflareAccountId : String) (token : String) :
      Step ⟨p, l₁ ++ PendingTask.gmiMembers accountId cloudflareAccountId token :: l₂⟩
        ⟨{ p with loadingMembers := setDelete p.loadingMembers accountId }, l₁ ++ l₂⟩
  | gmiMembersOk (p : ProviderState) (l₁ l₂ : List PendingTask)
      (accountId cloudflareAccountId : String) (token : String) (members : List Member) :
      Step ⟨p, l₁ ++ PendingTask.gmiMembers accountId cloudflareAccountId token :: l₂⟩
        ⟨{ p with membersCache := mapSet p.membersCache accountId members,
                  loadingMembers := setDelete p.loadingMembers accountId }, l₁ ++ l₂⟩
  | refreshStep (p : ProviderState) (ts : List PendingTask) :
      Step ⟨p, ts⟩ ⟨refresh p, ts⟩
  | refreshAccountStep (p : ProviderState) (ts : List PendingTask) (accountId : String) :
      Step ⟨p, ts⟩ ⟨refreshAccount p accountId, ts⟩
  | refreshZoneStep (p : ProviderState) (ts : List PendingTask) (accountId zoneId : String) :
      Step ⟨p, ts⟩ ⟨refreshZone p accountId zoneId, ts⟩

/-- A state observable at a suspension point of some execution. -/
def Reachable (s : SysState) : Prop :=
  Relation.ReflTransGen Step SysState.init s

/-! ### Basic facts about the map and set operations -/


/-! ### Basic facts about the map and set operations -/

theorem contains_iff_mem (s : List String) (x : String) :
    s.contains x = true ↔ x ∈ s :=
  List.elem_iff

theorem mapHas_mapSet_self (m : List (String × α)) (k : String) (v : α) :
    mapHas (mapSet m k v) k = true := by
  unfold mapSet mapHas
  by_cases h : m.any (fun p => p.1 == k)
  · rw [if_pos h]
    rw [List.any_eq_true] at h ⊢
    obtain ⟨p, hp, hpk⟩ := h
    exact ⟨(k, v), List.mem_map.2 ⟨p, hp, by simp [hpk]⟩, by simp⟩
  · rw [if_neg h, List.any_eq_true]
    exact ⟨(k, v), List.mem_append.2 (Or.inr (by simp)), by simp⟩

theorem mapHas_mapSet_ne (m : List (String × α)) (k : String) (v : α)
    (x : String) (hx : x ≠ k) : mapHas (mapSet m k v) x = mapHas m x := by
  unfold mapSet mapHas
  by_cases h : m.any (fun p => p.1 == k)
  · rw [if_pos h, Bool.eq_iff_iff]
    simp only [List.any_eq_true]
    constructor
    · rintro ⟨q, hq, hqx⟩
      obtain ⟨p, hp, rfl⟩ := List.mem_map.1 hq
      by_cases hpk : (p.1 == k) = true
      · rw [if_pos hpk] at hqx
        simp only [beq_iff_eq] at hqx
        exact absurd hqx.symm hx
      · rw [if_neg hpk] at hqx
        exact ⟨p, hp, hqx⟩
    · rintro ⟨p, hp, hpx⟩
      refine ⟨if p.1 == k then (k, v) else p, List.mem_map.2 ⟨p, hp, rfl⟩, ?_⟩
      have hpk : (p.1 == k) = false := by
        rcases Bool.eq_false_or_eq_true (p.1 == k) with ht | hf
        · have h1 : p.1 = k := by simpa using ht
          have h2 : p.1 = x := by simpa using hpx
          exact absurd (h2.symm.trans h1) hx
        · exact hf
      rw [if_neg (by simp [hpk])]
      exact hpx
  · rw [if_neg h, Bool.eq_iff_iff]
    simp only [List.any_eq_true]
    constructor
    · rintro ⟨q, hq, hqx⟩
      rcases List.mem_append.1 hq with hq | hq
      · exact ⟨q, hq, hqx⟩
      · simp only [List.mem_singleton] at hq
        subst hq
        simp only [beq_iff_eq] at hqx
        exact absurd hqx.symm hx
    · rintro ⟨p, hp, hpx⟩
      exact ⟨p, List.mem_append.2 (Or.inl hp), hpx⟩

theorem mapHas_of_mapHas_filter (m : List (String × α)) (f : String × α → Bool)
    (x : String) (h : mapHas (m.filter f) x = true) : mapHas m x = true := by
  unfold mapHas at h ⊢
  simp only [List.any_eq_true] at h ⊢
  obtain ⟨p, hp, hx⟩ := h
  exact ⟨p, List.mem_of_mem_filter hp, hx⟩

theorem mapHas_of_mapHas_mapDelete (m : List (String × α)) (k x : String)
    (h : mapHas (mapDelete m k) x = true) : mapHas m x = true :=
  mapHas_of_mapHas_filter m _ x h

theorem mapHas_mapDelete_self (m : List (String × α)) (k : String) :
    mapHas (mapDelete m k) k = false := by
  unfold mapHas mapDelete
  rw [Bool.eq_false_iff]
  intro h
  simp only [List.any_eq_true] at h
  obtain ⟨p, hp, hpk⟩ := h
  have h1 : p.1 = k := by simpa using hpk
  have h2 := (List.mem_filter.1 hp).2
  rw [h1] at h2
  simp at h2

theorem contains_setAdd (s : List String) (k x : String)
    (h : (setAdd s k).contains x = true) : s.contains x = true ∨ x = k := by
  unfold setAdd at h
  by_cases hk : s.contains k = true
  · rw [if_pos hk] at h
    exact Or.inl h
  · rw [if_neg hk] at h
    rcases List.mem_append.1 ((contains_iff_mem _ _).1 h) with hs | hx
    · exact Or.inl ((contains_iff_mem _ _).2 hs)
    · exact Or.inr (by simpa using hx)

theorem contains_setAdd_self (s : List String) (k : String) :
    (setAdd s k).contains k = true := by
  unfold setAdd
  by_cases hk : s.contains k = true
  · rw [if_pos hk]
    exact hk
  · rw [if_neg hk]
    exact (contains_iff_mem _ _).2 (List.mem_append.2 (Or.inr (by simp)))

theorem contains_setDelete (s : List String) (k x : String)
    (h : (setDelete s k).contains x = true) : s.contains x = true ∧ x ≠ k := by
  unfold setDelete at h
  have hx := List.mem_filter.1 ((contains_iff_mem _ _).1 h)
  exact ⟨(contains_iff_mem _ _).2 hx.1, by simpa [bne_iff_ne] using hx.2⟩

theorem contains_setDelete_of_contains (s : List String) (k x : String)
    (hx : s.contains x = true) (hne : x ≠ k) : (setDelete s k).contains x = true := by
  unfold setDelete
  exact (contains_iff_mem _ _).2
    (List.mem_filter.2 ⟨(contains_iff_mem _ _).1 hx, by simpa [bne_iff_ne] using hne⟩)

theorem contains_setDelete_self (s : List String) (k : String) :
    (setDelete s k).contains k = false := by
  unfold setDelete
  rw [Bool.eq_false_iff]
  intro h
  have hx := List.mem_filter.1 ((contains_iff_mem _ _).1 h)
  simpa [bne_iff_ne] using hx.2

theorem mapGet_setmap_self (m : List (String × α)) (k : String) (v : α)
    (h : m.any (fun p => p.1 == k) = true) :
    mapGet (m.map (fun p => if p.1 == k then (k, v) else p)) k = some v := by
  induction m with
  | nil => simp at h
  | cons p m ih =>
    by_cases hpk : (p.1 == k) = true
    · simp [mapGet, hpk]
    · have hf : (p.1 == k) = false := Bool.eq_false_iff.2 hpk
      rw [List.any_cons, hf, Bool.false_or] at h
      simpa [mapGet, hf] using ih h

theorem mapGet_append_single_self (m : List (String × α)) (k : String) (v : α)
    (h : m.any (fun p => p.1 == k) = false) :
    mapGet (m ++ [(k, v)]) k = some v := by
  induction m with
  | nil => simp [mapGet]
  | cons p m ih =>
    rw [List.any_cons, Bool.or_eq_false_iff] at h
    simpa [mapGet, h.1] using ih h.2

theorem mapGet_mapSet_self (m : List (String × α)) (k : String) (v : α) :
    mapGet (mapSet m k v) k = some v := by
  unfold mapSet
  by_cases h : m.any (fun p => p.1 == k)
  · rw [if_pos h]
    exact mapGet_setmap_self m k v h
  · rw [if_neg h]
    exact mapGet_append_single_self m k v (Bool.eq_false_iff.2 h)

theorem mapGet_setmap_ne (m : List (String × α)) (k : String) (v : α)
    (x : String) (hx : x ≠ k) :
    mapGet (m.map (fun p => if p.1 == k then (k, v) else p)) x = mapGet m x := by
  have hkx : (k == x) = false := beq_eq_false_iff_ne.2 (Ne.symm hx)
  induction m with
  | nil => rfl
  | cons p m ih =>
    by_cases hpk : (p.1 == k) = true
    · have h1 : p.1 = k := by simpa using hpk
      have hfx : (p.1 == x) = false := beq_eq_false_iff_ne.2 (h1 ▸ Ne.symm hx)
      simpa [mapGet, hpk, hkx, hfx] using ih
    · have hf : (p.1 == k) = false := Bool.eq_false_iff.2 hpk
      by_cases hpx : (p.1 == x) = true
      · simp [mapGet, hf, hpx]
      · have hfx : (p.1 == x) = false := Bool.eq_false_iff.2 hpx
        simpa [mapGet, hf, hfx] using ih

theorem mapGet_append_single_ne (m : List (String × α)) (k : String) (v : α)
    (x : String) (hx : x ≠ k) :
    mapGet (m ++ [(k, v)]) x = mapGet m x := by
  have hkx : (k == x) = false := beq_eq_false_iff_ne.2 (Ne.symm hx)
  induction m with
  | nil => simp [mapGet, hkx]
  | cons p m ih =>
    by_cases hpx : (p.1 == x) = true
    · simp [mapGet, hpx]
    · have hfx : (p.1 == x) = false := Bool.eq_false_iff.2 hpx
      simpa [mapGet, hfx] using ih

theorem mapGet_mapSet_ne (m : List (String × α)) (k : String) (v : α)
    (x : String) (hx : x ≠ k) : mapGet (mapSet m k v) x = mapGet m x := by
  unfold mapSet
  by_cases h : m.any (fun p => p.1 == k)
  · rw [if_pos h]
    exact mapGet_setmap_ne m k v x hx
  · rw [if_neg h]
    exact mapGet_append_single_ne m k v x hx

theorem mapGet_mapDelete_ne (m : List (String × α)) (k x : String)
    (hx : x ≠ k) : mapGet (mapDelete m k) x = mapGet m x := by
  unfold mapDelete
  induction m with
  | nil => rfl
  | cons p m ih =>
    by_cases hpk : (p.1 != k) = true
    · by_cases hpx : (p.1 == x) = true
      · simp [List.filter_cons, mapGet, hpk, hpx]
      · have hfx : (p.1 == x) = false := Bool.eq_false_iff.2 hpx
        simpa [List.filter_cons, mapGet, hpk, hfx] using ih
    · have hpkf : (p.1 != k) = false := Bool.eq_false_iff.2 hpk
      have h1 : p.1 = k := by
        by_contra hne
        exact hpk (bne_iff_ne.2 hne)
      have hfx : (p.1 == x) = false := beq_eq_false_iff_ne.2 (h1 ▸ Ne.symm hx)
      simpa [List.filter_cons, mapGet, hpkf, hfx] using ih

theorem mapGet_mapDelete_self (m : List (String × α)) (k : String) :
    mapGet (mapDelete m k) k = none := by
  unfold mapDelete
  induction m with
  | nil => rfl
  | cons p m ih =>
    by_cases hpk : (p.1 != k) = true
    · have hpkf : (p.1 == k) = false := beq_eq_false_iff_ne.2 (bne_iff_ne.1 hpk)
      simpa [List.filter_cons, mapGet, hpk, hpkf] using ih
    · have hpkf : (p.1 != k) = false := Bool.eq_false_iff.2 hpk
      simpa [List.filter_cons, hpkf] using ih

theorem mapHas_eq_false_iff_mapGet (m : List (String × α)) (k : String) :
    mapHas m k = false ↔ mapGet m k = none := by
  unfold mapHas
  induction m with
  | nil => simp [mapGet]
  | cons p m ih =>
    by_cases hpk : (p.1 == k) = true
    · simp [List.any_cons, hpk, mapGet]
    · have hf : (p.1 == k) = false := Bool.eq_false_iff.2 hpk
      simpa [List.any_cons, hf, mapGet] using ih

theorem mapGet_filter_key (m : List (String × α)) (g : String → Bool) (key : String)
    (hg : g key = true) :
    mapGet (m.filter (fun p => g p.1)) key = mapGet m key := by
  induction m with
  | nil => rfl
  | cons p m ih =>
    by_cases hpk : (p.1 == key) = true
    · have h1 : p.1 = key := by simpa using hpk
      have hgp : g p.1 = true := h1 ▸ hg
      simp [List.filter_cons, hgp, mapGet, hpk]
    · have hf : (p.1 == key) = false := Bool.eq_false_iff.2 hpk
      by_cases hgp : g p.1 = true
      · simpa [List.filter_cons, hgp, mapGet, hf] using ih
      · simpa [List.filter_cons, Bool.eq_false_iff.2 hgp, mapGet, hf] using ih

theorem mapGet_filter_key_drop (m : List (String × α)) (g : String → Bool) (key : String)
    (hg : g key = false) :
    mapGet (m.filter (fun p => g p.1)) key = none := by
  induction m with
  | nil => rfl
  | cons p m ih =>
    by_cases hpk : (p.1 == key) = true
    · have h1 : p.1 = key := by simpa using hpk
      have hgp : g p.1 = false := h1 ▸ hg
      simpa [List.filter_cons, hgp] using ih
    · have hf : (p.1 == key) = false := Bool.eq_false_iff.2 hpk
      by_cases hgp : g p.1 = true
      · simpa [List.filter_cons, hgp, mapGet, hf] using ih
      · simpa [List.filter_cons, Bool.eq_false_iff.2 hgp] using ih

/-! ### Concrete fixtures used by the evaluation theorems -/

/-- A sample account with id `"a"`. -/
def accA : Account := { id := "a", name := "Account A", cloudflareAccountId := "cfa" }

/-- A sample zone of account `"a"`. -/
def zoneZ : Zone :=
  { id := "z", name := "example.com", status := "active", paused := false, accountId := "a" }

/-- A sample zone of the adversarially named account `"a1"`. -/
def zoneA1 : Zone :=
  { id := "z", name := "other.com", status := "active", paused := false, accountId := "a1" }

/-- A sample DNS record of account `"a1"`. -/
def recR : DnsRecord :=
  { id := "r1", zoneId := "z", accountId := "a1", type := "A", name := "www",
    content := "1.2.3.4", ttl := 1, proxied := false, proxiable := true }

/-- An environment whose secret storage has no token for any account. -/
def envNoToken : Env :=
  { getAccounts := .ok [accA]
    getAccountWithToken := fun _ => .ok none
    getZones := fun _ _ => .ok []
    getDnsRecords := fun _ _ _ => .ok []
    getDnsRecordCount := fun _ _ _ => .ok 0
    getMembers := fun _ _ => .ok []
    showRecordCount := true
    visibleTypes := ["A", "AAAA", "CNAME", "MX", "TXT"] }

/-- A provider state in which account `"a1"` has cached zones, members and
records, while the distinct account `"a"` has nothing cached. -/
def stC2 : ProviderState :=
  { zonesCache := [("a1", [zoneA1])]
    membersCache := [("a1", [])]
    recordsCache := [("a1:z", [recR])] }

/-! ### C1: missing credentials and the loading guard -/

/-- C1 (evaluation of the divergence): when the credential lookup returns
no token, each of the three loaders returns exactly one error placeholder,
but the key is NOT removed from its loading-guard set, and a subsequent
`getChildren` on the same key therefore returns the loading placeholder
instead of retrying. -/
theorem c1_token_missing_keeps_guard :
    (getZoneItems envNoToken {} accA).1 = .ok [.error "Token not found"] ∧
    (getZoneItems envNoToken {} accA).2.loadingAccounts.contains "a" = true ∧
    (getZoneItems envNoToken (getZoneItems envNoToken {} accA).2 accA).1 = .ok [.loading] ∧
    (getDnsRecordItems envNoToken {} zoneZ "a").1 = .ok [.error "Token not found"] ∧
    (getDnsRecordItems envNoToken {} zoneZ "a").2.loadingZones.contains "a:z" = true ∧
    (getMemberItems envNoToken {} "a" "cfa").1 = .ok [.error "Token not found"] ∧
    (getMemberItems envNoToken {} "a" "cfa").2.loadingMembers.contains "a" = true :=
  ⟨rfl, rfl, rfl, rfl, rfl, rfl, rfl⟩

/-! ### C2: refreshAccount and prefix-colliding account ids -/

/-- C2 counterexample: with A = `"a"` and B = `"a1"`, `refreshAccount(A)`
deletes B's records-cache entry `"a1:z"` (because `"a1:z"` starts with the
string `"a"`), contradicting the claim that B's entries are unchanged for
every distinct pair. -/
theorem c2_counterexample :
    mapGet stC2.recordsCache "a1:z" = some [recR] ∧
    mapGet (refreshAccount stC2 "a").recordsCache "a1:z" = none :=
  ⟨rfl, rfl⟩

/-- C2 amended: `refreshAccount(A)` leaves B's zones and members entries
unchanged for every B ≠ A, and leaves B's records entry for zone z
unchanged whenever the composite key B ++ ":" ++ z does not start with A;
when that key does start with A (A a string prefix of it), the records
entry is deleted. -/
theorem c2_amended (st : ProviderState) (a b : String) (hab : b ≠ a) :
    mapGet (refreshAccount st a).zonesCache b = mapGet st.zonesCache b ∧
    mapGet (refreshAccount st a).membersCache b = mapGet st.membersCache b ∧
    (∀ z, strStartsWith (b ++ ":" ++ z) a = false →
      mapGet (refreshAccount st a).recordsCache (b ++ ":" ++ z) =
        mapGet st.recordsCache (b ++ ":" ++ z)) ∧
    (∀ key, strStartsWith key a = true →
      mapGet (refreshAccount st a).recordsCache key = none) := by
  refine ⟨mapGet_mapDelete_ne _ _ _ hab, mapGet_mapDelete_ne _ _ _ hab, ?_, ?_⟩
  · intro z hpre
    exact mapGet_filter_key st.recordsCache (fun s => !(strStartsWith s a)) _
      (by simp [hpre])
  · intro key hkey
    exact mapGet_filter_key_drop st.recordsCache (fun s => !(strStartsWith s a)) key
      (by simp [hkey])

/-- C2 amended, witness: the amended theorem applied to the concrete state
`stC2` at the adversarial prefix pair A = `"a"`, B = `"a1"` itself: B's
zones and members entries survive unconditionally, and the records
conjuncts are instantiated with their own hypotheses. -/
theorem c2_amended_witness :
    (("a1" : String) ≠ "a") ∧
    (mapGet (refreshAccount stC2 "a").zonesCache "a1" = mapGet stC2.zonesCache "a1" ∧
     mapGet (refreshAccount stC2 "a").membersCache "a1" = mapGet stC2.membersCache "a1" ∧
     (∀ z, strStartsWith ("a1" ++ ":" ++ z) "a" = false →
       mapGet (refreshAccount stC2 "a").recordsCache ("a1" ++ ":" ++ z) =
         mapGet stC2.recordsCache ("a1" ++ ":" ++ z)) ∧
     (∀ key, strStartsWith key "a" = true →
       mapGet (refreshAccount stC2 "a").recordsCache key = none)) ∧
    strStartsWith ("a1" ++ ":" ++ "z") "a" = true ∧
    mapGet (refreshAccount stC2 "a").recordsCache ("a1" ++ ":" ++ "z") = none :=
  ⟨by decide, c2_amended stC2 "a" "a1" (by decide), by decide,
   (c2_amended stC2 "a" "a1" (by decide)).2.2.2 ("a1" ++ ":" ++ "z") (by decide)⟩

/-! ### C10: refresh operations never touch the loading-guard sets -/

/-- C10: `refresh` clears the three cache tables but leaves all three
loading-guard sets unchanged, and `refreshAccount` / `refreshZone` also
leave all three guard sets unchanged. -/
theorem c10_refresh_preserves_guards :
    (∀ st : ProviderState,
      (refresh st).loadingAccounts = st.loadingAccounts ∧
      (refresh st).loadingZones = st.loadingZones ∧
      (refresh st).loadingMembers = st.loadingMembers ∧
      (refresh st).zonesCache = [] ∧
      (refresh st).recordsCache = [] ∧
      (refresh st).membersCache = []) ∧
    (∀ (st : ProviderState) (accountId : String),
      (refreshAccount st accountId).loadingAccounts = st.loadingAccounts ∧
      (refreshAccount st accountId).loadingZones = st.loadingZones ∧
      (refreshAccount st accountId).loadingMembers = st.loadingMembers) ∧
    (∀ (st : ProviderState) (accountId zoneId : String),
      (refreshZone st accountId zoneId).loadingAccounts = st.loadingAccounts ∧
      (refreshZone st accountId zoneId).loadingZones = st.loadingZones ∧
      (refreshZone st accountId zoneId).loadingMembers = st.loadingMembers) :=
  ⟨fun _ => ⟨rfl, rfl, rfl, rfl, rfl, rfl⟩,
   fun _ _ => ⟨rfl, rfl, rfl⟩,
   fun _ _ _ => ⟨rfl, rfl, rfl⟩⟩

/-! ### Order facts about the record comparator -/

theorem charListCompare_nil_ne_gt (l : List Char) : charListCompare [] l ≠ .gt := by
  cases l <;> simp [charListCompare]

theorem charListCompare_eq_iff : ∀ a b : List Char, charListCompare a b = .eq ↔ a = b
  | [], [] => by simp [charListCompare]
  | [], _ :: _ => by simp [charListCompare]
  | _ :: _, [] => by simp [charListCompare]
  | c :: cs, d :: ds => by
    by_cases hcd : c < d
    · refine iff_of_false (by simp [charListCompare, hcd]) ?_
      intro h
      rw [List.cons.injEq] at h
      exact absurd h.1 (ne_of_lt hcd)
    · by_cases hdc : d < c
      · refine iff_of_false (by simp [charListCompare, hcd, hdc]) ?_
        intro h
        rw [List.cons.injEq] at h
        exact absurd h.1.symm (ne_of_lt hdc)
      · have he : c = d := le_antisymm (not_lt.1 hdc) (not_lt.1 hcd)
        rw [show charListCompare (c :: cs) (d :: ds) = charListCompare cs ds by
          simp [charListCompare, hcd, hdc]]
        rw [charListCompare_eq_iff cs ds, List.cons.injEq]
        constructor
        · exact fun h => ⟨he, h⟩
        · exact fun h => h.2

theorem charListCompare_swap : ∀ a b : List Char,
    charListCompare b a = (charListCompare a b).swap
  | [], [] => by simp [charListCompare, Ordering.swap]
  | [], _ :: _ => by simp [charListCompare, Ordering.swap]
  | _ :: _, [] => by simp [charListCompare, Ordering.swap]
  | c :: cs, d :: ds => by
    by_cases hcd : c < d
    · have hdc : ¬ d < c := fun h => absurd hcd (not_lt.2 h.le)
      simp [charListCompare, hcd, hdc, Ordering.swap]
    · by_cases hdc : d < c
      · simp [charListCompare, hcd, hdc, Ordering.swap]
      · simp [charListCompare, hcd, hdc, charListCompare_swap cs ds]

theorem charListCompare_le_trans : ∀ a b c : List Char,
    charListCompare a b ≠ .gt → charListCompare b c ≠ .gt →
      charListCompare a c ≠ .gt
  | [], _, c, _, _ => charListCompare_nil_ne_gt c
  | _ :: _, [], _, hab, _ => absurd rfl hab
  | _ :: _, _ :: _, [], _, hbc => absurd rfl hbc
  | x :: xs, y :: ys, z :: zs, hab, hbc => by
    by_cases hxy : x < y
    · by_cases hyz : y < z
      · have hxz : x < z := lt_trans hxy hyz
        simp [charListCompare, hxz]
      · by_cases hzy : z < y
        · exact absurd (by simp [charListCompare, hyz, hzy]) hbc
        · have hyz2 : y = z := le_antisymm (not_lt.1 hzy) (not_lt.1 hyz)
          have hxz : x < z := hyz2 ▸ hxy
          simp [charListCompare, hxz]
    · by_cases hyx : y < x
      · exact absurd (by simp [charListCompare, hxy, hyx]) hab
      · have hxy2 : x = y := le_antisymm (not_lt.1 hyx) (not_lt.1 hxy)
        have hab2 : charListCompare xs ys ≠ .gt := by
          intro h
          exact hab (by simp [charListCompare, hxy, hyx, h])
        by_cases hyz : y < z
        · have hxz : x < z := hxy2 ▸ hyz
          simp [charListCompare, hxz]
        · by_cases hzy : z < y
          · exact absurd (by simp [charListCompare, hyz, hzy]) hbc
          · have hyz2 : y = z := le_antisymm (not_lt.1 hzy) (not_lt.1 hyz)
            have hbc2 : charListCompare ys zs ≠ .gt := by
              intro h
              exact hbc (by simp [charListCompare, hyz, hzy, h])
            have hxz : ¬ x < z := by
              rw [hxy2, hyz2]
              exact lt_irrefl z
            have hzx : ¬ z < x := by
              rw [hxy2, hyz2]
              exact lt_irrefl z
            have hrec := charListCompare_le_trans xs ys zs hab2 hbc2
            simpa [charListCompare, hxz, hzx] using hrec

theorem lcmp_eq_iff (a b : String) : localeCompare a b = .eq ↔ a = b := by
  unfold localeCompare
  rw [charListCompare_eq_iff]
  constructor
  · intro h
    cases a
    cases b
    exact congrArg String.mk h
  · intro h
    rw [h]

theorem lcmp_swap (a b : String) : localeCompare b a = (localeCompare a b).swap :=
  charListCompare_swap a.data b.data

theorem lcmp_le_trans {a b c : String} (hab : localeCompare a b ≠ .gt)
    (hbc : localeCompare b c ≠ .gt) : localeCompare a c ≠ .gt :=
  charListCompare_le_trans a.data b.data c.data hab hbc

theorem lcmp_lt_trans {a b c : String} (hab : localeCompare a b = .lt)
    (hbc : localeCompare b c = .lt) : localeCompare a c = .lt := by
  have hac : localeCompare a c ≠ .gt :=
    lcmp_le_trans (by rw [hab]; simp) (by rw [hbc]; simp)
  cases h3 : localeCompare a c with
  | lt => rfl
  | gt => exact absurd h3 hac
  | eq =>
    have he : a = c := (lcmp_eq_iff _ _).1 h3
    subst he
    have h4 := lcmp_swap a b
    rw [hab] at h4
    rw [hbc] at h4
    simp [Ordering.swap] at h4

theorem recordLE_iff (a b : DnsRecord) :
    recordLE a b ↔ (localeCompare a.type b.type = .lt ∨
      (a.type = b.type ∧ localeCompare a.name b.name ≠ .gt)) := by
  unfold recordLE recordCmp
  cases h : localeCompare a.type b.type with
  | lt => exact iff_of_true (by simp) (Or.inl rfl)
  | eq =>
    have ht : a.type = b.type := (lcmp_eq_iff _ _).1 h
    constructor
    · exact fun hn => Or.inr ⟨ht, hn⟩
    · rintro (hlt | ⟨_, hn⟩)
      · simp at hlt
      · exact hn
  | gt =>
    refine iff_of_false (by simp) ?_
    rintro (hlt | ⟨he, _⟩)
    · simp at hlt
    · rw [(lcmp_eq_iff a.type b.type).2 he] at h
      cases h

instance : IsTrans DnsRecord recordLE :=
  ⟨by
    intro a b c hab hbc
    rw [recordLE_iff] at hab hbc ⊢
    rcases hab with h1 | ⟨h1, h1n⟩ <;> rcases hbc with h2 | ⟨h2, h2n⟩
    · exact Or.inl (lcmp_lt_trans h1 h2)
    · exact Or.inl (h2 ▸ h1)
    · refine Or.inl ?_
      rw [h1]
      exact h2
    · exact Or.inr ⟨h1.trans h2, lcmp_le_trans h1n h2n⟩⟩

instance : IsTotal DnsRecord recordLE :=
  ⟨by
    intro a b
    rw [recordLE_iff, recordLE_iff]
    cases h : localeCompare a.type b.type with
    | lt => exact Or.inl (Or.inl rfl)
    | eq =>
      have he : a.type = b.type := (lcmp_eq_iff _ _).1 h
      cases hn : localeCompare a.name b.name with
      | lt => exact Or.inl (Or.inr ⟨he, by simp⟩)
      | eq => exact Or.inl (Or.inr ⟨he, by simp⟩)
      | gt =>
        refine Or.inr (Or.inr ⟨he.symm, ?_⟩)
        rw [lcmp_swap a.name b.name, hn]
        simp [Ordering.swap]
    | gt =>
      refine Or.inr (Or.inl ?_)
      rw [lcmp_swap a.type b.type, h]
      rfl⟩

/-- A record built from just a type and a name, for the concrete sort test. -/
def mkRec (t n : String) : DnsRecord :=
  { id := n, zoneId := "z", accountId := "a", type := t, name := n,
    content := "", ttl := 1, proxied := false, proxiable := false }

/-! ### C7: filterAndSortRecords -/

/-- C7: `filterAndSortRecords` keeps exactly the records whose type is in
the allow-list (as a permutation of the filtered input), sorts them by
type then name (the comparator order `recordLE` is exactly lexicographic
on (type, name)), is deterministic, is idempotent on the record-list
level, wraps the result in record tree items, and produces `A/a, A/c,
TXT/b` on the spec's concrete example. -/
theorem c7_filterAndSortRecords :
    (∀ (v : List String) (l : List DnsRecord),
      List.Perm (filterSortCore v l) (l.filter (fun r => v.contains r.type))) ∧
    (∀ (v : List String) (l : List DnsRecord),
      List.Sorted recordLE (filterSortCore v l)) ∧
    (∀ a b : DnsRecord,
      recordLE a b ↔ (localeCompare a.type b.type = .lt ∨
        (a.type = b.type ∧ localeCompare a.name b.name ≠ .gt))) ∧
    (∀ (v : List String) (l₁ l₂ : List DnsRecord),
      l₁ = l₂ → filterSortCore v l₁ = filterSortCore v l₂) ∧
    (∀ (v : List String) (l : List DnsRecord),
      filterSortCore v (filterSortCore v l) = filterSortCore v l) ∧
    (∀ (env : Env) (l : List DnsRecord),
      filterAndSortRecords env l =
        (filterSortCore env.visibleTypes l).map TreeItemType.dnsRecord) ∧
    filterSortCore ["A", "TXT"] [mkRec "TXT" "b", mkRec "A" "a", mkRec "A" "c"] =
      [mkRec "A" "a", mkRec "A" "c", mkRec "TXT" "b"] := by
  refine ⟨fun v l => List.perm_insertionSort _ _,
          fun v l => List.sorted_insertionSort _ _,
          recordLE_iff,
          fun v l₁ l₂ h => by rw [h],
          fun v l => ?_,
          fun env l => rfl,
          by rfl⟩
  unfold filterSortCore
  have hfil : (List.insertionSort recordLE
      (l.filter (fun r => v.contains r.type))).filter (fun r => v.contains r.type) =
      List.insertionSort recordLE (l.filter (fun r => v.contains r.type)) := by
    apply List.filter_eq_self.2
    intro rec hrec
    have hmem : rec ∈ l.filter (fun r => v.contains r.type) :=
      (List.mem_insertionSort recordLE).1 hrec
    exact (List.mem_filter.1 hmem).2
  rw [hfil]
  exact (List.sorted_insertionSort recordLE _).insertionSort_eq

/-- C7 witness: the theorem's universally quantified parts instantiated at
the spec's concrete record list, with the determinism hypothesis
discharged by `rfl`. -/
theorem c7_filterAndSortRecords_witness :
    List.Perm (filterSortCore ["A", "TXT"] [mkRec "TXT" "b", mkRec "A" "a", mkRec "A" "c"])
      ([mkRec "TXT" "b", mkRec "A" "a", mkRec "A" "c"].filter
        (fun r => (["A", "TXT"] : List String).contains r.type)) ∧
    List.Sorted recordLE
      (filterSortCore ["A", "TXT"] [mkRec "TXT" "b", mkRec "A" "a", mkRec "A" "c"]) ∧
    (recordLE (mkRec "A" "a") (mkRec "TXT" "b") ↔
      (localeCompare (mkRec "A" "a").type (mkRec "TXT" "b").type = .lt ∨
       ((mkRec "A" "a").type = (mkRec "TXT" "b").type ∧
        localeCompare (mkRec "A" "a").name (mkRec "TXT" "b").name ≠ .gt))) ∧
    filterSortCore ["A"] [mkRec "A" "a"] = filterSortCore ["A"] [mkRec "A" "a"] ∧
    filterSortCore ["A", "TXT"]
        (filterSortCore ["A", "TXT"] [mkRec "TXT" "b", mkRec "A" "a", mkRec "A" "c"]) =
      filterSortCore ["A", "TXT"] [mkRec "TXT" "b", mkRec "A" "a", mkRec "A" "c"] :=
  ⟨c7_filterAndSortRecords.1 _ _,
   c7_filterAndSortRecords.2.1 _ _,
   c7_filterAndSortRecords.2.2.1 _ _,
   c7_filterAndSortRecords.2.2.2.1 _ _ _ rfl,
   c7_filterAndSortRecords.2.2.2.2.1 _ _⟩

/-! ### C6: pagination of the API fetchers -/

theorem fetchPages_run (resp : Nat → PageResponse α) (f : α → β) (N : Nat)
    (hok : ∀ p, 1 ≤ p → p ≤ N → (resp p).success = true)
    (hinfo : ∀ p, 1 ≤ p → p ≤ N →
      ∃ ri, (resp p).result_info = some ri ∧ ri.total_pages = N) :
    ∀ (fuel page tp : Nat) (acc : List β), 1 ≤ page → page ≤ N →
      N + 1 - page ≤ fuel →
      fetchPages resp f fuel page tp acc =
        .ok (acc ++ ((List.range' page (N + 1 - page)).map
          (fun p => (resp p).result.map f)).join) := by
  intro fuel
  induction fuel with
  | zero =>
    intro page tp acc h1 h2 h3
    omega
  | succ fuel ih =>
    intro page tp acc h1 h2 h3
    obtain ⟨ri, hri, htp⟩ := hinfo page h1 h2
    simp only [fetchPages, hok page h1 h2, if_true, hri, htp]
    by_cases hpn : page + 1 ≤ N
    · rw [if_pos hpn,
        ih (page + 1) N (acc ++ (resp page).result.map f) (by omega) hpn (by omega)]
      have hsplit : N + 1 - page = (N - page) + 1 := by omega
      have hnext : N + 1 - (page + 1) = N - page := by omega
      rw [hsplit, hnext, List.range'_succ]
      simp [List.flatten]
    · rw [if_neg hpn]
      have h4 : N + 1 - page = 1 := by omega
      rw [h4]
      simp [List.range', List.flatten]

theorem fetchPages_no_info (resp : Nat → PageResponse α) (f : α → β) (fuel : Nat)
    (hfuel : 1 ≤ fuel) (hs : (resp 1).success = true)
    (hnone : (resp 1).result_info = none) :
    fetchPages resp f fuel 1 1 [] = .ok ((resp 1).result.map f) := by
  cases fuel with
  | zero => omega
  | succ fuel =>
    simp [fetchPages, hs, hnone]

/-- C6: the paged fetchers request pages 1..N sequentially and return the
concatenation of the pages' mapped items in page order, where N is the
server-reported `total_pages` (consistently reported over the run); with
no `result_info` the fetch is a single page.  Stated for both `getZones`
and `getDnsRecords`. -/
theorem c6_pagination :
    (∀ (resp : Nat → PageResponse ZoneWire) (accountId : String) (N fuel : Nat),
      1 ≤ N → N ≤ fuel →
      (∀ p, 1 ≤ p → p ≤ N → (resp p).success = true) →
      (∀ p, 1 ≤ p → p ≤ N →
        ∃ ri, (resp p).result_info = some ri ∧ ri.total_pages = N) →
      apiGetZones resp accountId fuel =
        .ok ((List.range' 1 N).map
          (fun p => (resp p).result.map (zoneOfWire accountId))).join) ∧
    (∀ (resp : Nat → PageResponse DnsRecordWire) (accountId zoneId : String)
        (N fuel : Nat),
      1 ≤ N → N ≤ fuel →
      (∀ p, 1 ≤ p → p ≤ N → (resp p).success = true) →
      (∀ p, 1 ≤ p → p ≤ N →
        ∃ ri, (resp p).result_info = some ri ∧ ri.total_pages = N) →
      apiGetDnsRecords resp accountId zoneId fuel =
        .ok ((List.range' 1 N).map
          (fun p => (resp p).result.map (recordOfWire accountId zoneId))).join) ∧
    (∀ (resp : Nat → PageResponse ZoneWire) (accountId : String) (fuel : Nat),
      1 ≤ fuel → (resp 1).success = true → (resp 1).result_info = none →
      apiGetZones resp accountId fuel =
        .ok ((resp 1).result.map (zoneOfWire accountId))) ∧
    (∀ (resp : Nat → PageResponse DnsRecordWire) (accountId zoneId : String)
        (fuel : Nat),
      1 ≤ fuel → (resp 1).success = true → (resp 1).result_info = none →
      apiGetDnsRecords resp accountId zoneId fuel =
        .ok ((resp 1).result.map (recordOfWire accountId zoneId))) := by
  refine ⟨fun resp accountId N fuel hN hfuel hok hinfo => ?_,
          fun resp accountId zoneId N fuel hN hfuel hok hinfo => ?_,
          fun resp accountId fuel hfuel hs hnone =>
            fetchPages_no_info resp _ fuel hfuel hs hnone,
          fun resp accountId zoneId fuel hfuel hs hnone =>
            fetchPages_no_info resp _ fuel hfuel hs hnone⟩
  · have h := fetchPages_run resp (zoneOfWire accountId) N hok hinfo fuel 1 1 []
      (le_refl 1) hN (by omega)
    simpa [Nat.add_sub_cancel] using h
  · have h := fetchPages_run resp (recordOfWire accountId zoneId) N hok hinfo fuel 1 1 []
      (le_refl 1) hN (by omega)
    simpa [Nat.add_sub_cancel] using h

/-- A mocked zone wire item. -/
def mkWire (i : String) : ZoneWire :=
  { id := i, name := i, status := "active", paused := false, account_id := "cf" }

/-- A mocked page reporting three total pages of two items each. -/
def mockPage (items : List ZoneWire) : PageResponse ZoneWire :=
  { success := true, errors := [], result := items,
    result_info := some { page := 1, per_page := 2, total_count := 6, total_pages := 3 } }

/-- The mocked paged endpoint of the spec: 3 pages of 2 items each. -/
def mockResp : Nat → PageResponse ZoneWire
  | 1 => mockPage [mkWire "z1", mkWire "z2"]
  | 2 => mockPage [mkWire "z3", mkWire "z4"]
  | 3 => mockPage [mkWire "z5", mkWire "z6"]
  | _ => { success := false, errors := [(0, "no such page")], result := [],
           result_info := none }

/-- A mocked single-page endpoint with no `result_info`. -/
def singlePageResp : Nat → PageResponse ZoneWire := fun _ =>
  { success := true, errors := [], result := [mkWire "w1"], result_info := none }

/-- C6 witness: the theorem applied to the 3-page mock yields exactly the
six zones in page order, and a single page without `result_info` yields
exactly its own items. -/
theorem c6_pagination_witness :
    ((1 : Nat) ≤ 3 ∧ (3 : Nat) ≤ 3 ∧
     (∀ p, 1 ≤ p → p ≤ 3 → (mockResp p).success = true) ∧
     (∀ p, 1 ≤ p → p ≤ 3 →
       ∃ ri, (mockResp p).result_info = some ri ∧ ri.total_pages = 3)) ∧
    apiGetZones mockResp "acc" 3 =
      .ok [zoneOfWire "acc" (mkWire "z1"), zoneOfWire "acc" (mkWire "z2"),
           zoneOfWire "acc" (mkWire "z3"), zoneOfWire "acc" (mkWire "z4"),
           zoneOfWire "acc" (mkWire "z5"), zoneOfWire "acc" (mkWire "z6")] ∧
    apiGetZones singlePageResp "acc" 5 =
      .ok [zoneOfWire "acc" (mkWire "w1")] := by
  have hok : ∀ p, 1 ≤ p → p ≤ 3 → (mockResp p).success = true := by
    intro p h1 h2
    interval_cases p <;> rfl
  have hinfo : ∀ p, 1 ≤ p → p ≤ 3 →
      ∃ ri, (mockResp p).result_info = some ri ∧ ri.total_pages = 3 := by
    intro p h1 h2
    interval_cases p <;> exact ⟨_, rfl, rfl⟩
  refine ⟨⟨by decide, by decide, hok, hinfo⟩, ?_, ?_⟩
  · exact (c6_pagination.1 mockResp "acc" 3 3 (by decide) (by decide) hok hinfo).trans
      (by rfl)
  · exact (c6_pagination.2.2.1 singlePageResp "acc" 5 (by decide) rfl rfl).trans (by rfl)

/-! ### C4: getChildren is total and failure paths are singleton placeholders -/

theorem getZoneItemsTry_ok_shape (env : Env) (account : Account)
    (st : ProviderState) (items : List TreeItemType) (st2 : ProviderState)
    (h : getZoneItemsTry env account st = (.ok items, st2)) :
    items = [.error "Token not found"] ∨ (∀ e ∈ items, e.isErrorItem = false) := by
  unfold getZoneItemsTry at h
  dsimp only at h
  split at h
  · simp at h
  · injection h with h1 h2
    injection h1 with h1
    exact Or.inl h1.symm
  · split at h
    · simp at h
    · right
      split at h
      all_goals
        injection h with h1 h2
        injection h1 with h1
        subst h1
        intro e he
        rcases List.mem_append.1 he with hm | hm
        · split at hm
          · rcases List.mem_singleton.1 hm with rfl
            rfl
          · rcases List.mem_map.1 hm with ⟨z, _, rfl⟩
            rfl
        · rcases List.mem_singleton.1 hm with rfl
          rfl

theorem getZoneItems_ok_shape (env : Env) (st : ProviderState) (account : Account)
    (items : List TreeItemType)
    (h : (getZoneItems env st account).1 = .ok items) :
    (∃ e, items = [e]) ∨ (∀ e ∈ items, e.isErrorItem = false) := by
  unfold getZoneItems at h
  dsimp only at h
  split at h
  · right
    injection h with h1
    subst h1
    intro e he
    rcases List.mem_append.1 he with hm | hm
    · rcases List.mem_map.1 hm with ⟨z, _, rfl⟩
      rfl
    · rcases List.mem_singleton.1 hm with rfl
      rfl
  · split at h
    · left
      injection h with h1
      exact ⟨_, h1.symm⟩
    · split at h
      · next items2 st3 heq =>
        injection h with h1
        subst h1
        rcases getZoneItemsTry_ok_shape env account _ items2 st3 heq with h2 | h2
        · exact Or.inl ⟨_, h2⟩
        · exact Or.inr h2
      · left
        injection h with h1
        exact ⟨_, h1.symm⟩

theorem getDnsRecordItemsTry_ok_shape (env : Env) (zone : Zone)
    (accountId cacheKey : String) (st : ProviderState) (items : List TreeItemType)
    (st2 : ProviderState)
    (h : getDnsRecordItemsTry env zone accountId cacheKey st = (.ok items, st2)) :
    items = [.error "Token not found"] ∨ (∀ e ∈ items, e.isErrorItem = false) := by
  unfold getDnsRecordItemsTry at h
  dsimp only at h
  split at h
  · simp at h
  · injection h with h1 h2
    injection h1 with h1
    exact Or.inl h1.symm
  · split at h
    · simp at h
    · right
      split at h
      · injection h with h1 h2
        injection h1 with h1
        subst h1
        intro e he
        rcases List.mem_singleton.1 he with rfl
        rfl
      · injection h with h1 h2
        injection h1 with h1
        subst h1
        intro e he
        rcases List.mem_map.1 he with ⟨r, _, rfl⟩
        rfl

theorem getDnsRecordItems_ok_shape (env : Env) (st : ProviderState) (zone : Zone)
    (accountId : String) (items : List TreeItemType)
    (h : (getDnsRecordItems env st zone accountId).1 = .ok items) :
    (∃ e, items = [e]) ∨ (∀ e ∈ items, e.isErrorItem = false) := by
  unfold getDnsRecordItems at h
  dsimp only at h
  split at h
  · right
    injection h with h1
    subst h1
    intro e he
    rcases List.mem_map.1 he with ⟨r, _, rfl⟩
    rfl
  · split at h
    · left
      injection h with h1
      exact ⟨_, h1.symm⟩
    · split at h
      · next items2 st3 heq =>
        injection h with h1
        subst h1
        rcases getDnsRecordItemsTry_ok_shape env zone accountId _ _ items2 st3 heq with h2 | h2
        · exact Or.inl ⟨_, h2⟩
        · exact Or.inr h2
      · left
        injection h with h1
        exact ⟨_, h1.symm⟩

theorem getMemberItemsTry_ok_shape (env : Env) (accountId cloudflareAccountId : String)
    (zoneMap : List (String × String)) (st : ProviderState)
    (items : List TreeItemType) (st2 : ProviderState)
    (h : getMemberItemsTry env accountId cloudflareAccountId zoneMap st = (.ok items, st2)) :
    items = [.error "Token not found"] ∨ (∀ e ∈ items, e.isErrorItem = false) := by
  unfold getMemberItemsTry at h
  dsimp only at h
  split at h
  · simp at h
  · injection h with h1 h2
    injection h1 with h1
    exact Or.inl h1.symm
  · split at h
    · simp at h
    · right
      split at h
      · injection h with h1 h2
        injection h1 with h1
        subst h1
        intro e he
        rcases List.mem_singleton.1 he with rfl
        rfl
      · injection h with h1 h2
        injection h1 with h1
        subst h1
        intro e he
        rcases List.mem_map.1 he with ⟨m, _, rfl⟩
        rfl

theorem getMemberItems_ok_shape (env : Env) (st : ProviderState)
    (accountId cloudflareAccountId : String) (items : List TreeItemType)
    (h : (getMemberItems env st accountId cloudflareAccountId).1 = .ok items) :
    (∃ e, items = [e]) ∨ (∀ e ∈ items, e.isErrorItem = false) := by
  unfold getMemberItems at h
  dsimp only at h
  split at h
  · split at h
    · left
      injection h with h1
      exact ⟨_, h1.symm⟩
    · right
      injection h with h1
      subst h1
      intro e he
      rcases List.mem_map.1 he with ⟨m, _, rfl⟩
      rfl
  · split at h
    · left
      injection h with h1
      exact ⟨_, h1.symm⟩
    · split at h
      · next items2 st3 heq =>
        injection h with h1
        subst h1
        rcases getMemberItemsTry_ok_shape env accountId cloudflareAccountId _ _
          items2 st3 heq with h2 | h2
        · exact Or.inl ⟨_, h2⟩
        · exact Or.inr h2
      · left
        injection h with h1
        exact ⟨_, h1.symm⟩

theorem getAccountItems_ok_shape (env : Env) (items : List TreeItemType)
    (h : getAccountItems env = .ok items) :
    (∃ e, items = [e]) ∨ (∀ e ∈ items, e.isErrorItem = false) := by
  unfold getAccountItems at h
  split at h
  · left
    injection h with h1
    exact ⟨_, h1.symm⟩
  · split at h
    · left
      injection h with h1
      exact ⟨_, h1.symm⟩
    · right
      injection h with h1
      subst h1
      intro e he
      rcases List.mem_map.1 he with ⟨a, _, rfl⟩
      rfl

theorem getChildren_isOk (env : Env) (st : ProviderState)
    (element : Option TreeItemType) :
    ∃ items, (getChildren env st element).1 = .ok items := by
  unfold getChildren
  rcases element with _ | el
  · unfold getAccountItems
    dsimp only
    split
    · exact ⟨_, rfl⟩
    · split
      · exact ⟨_, rfl⟩
      · exact ⟨_, rfl⟩
  · cases el
    case account account =>
      unfold getZoneItems
      dsimp only
      split
      · exact ⟨_, rfl⟩
      · split
        · exact ⟨_, rfl⟩
        · split
          · exact ⟨_, rfl⟩
          · exact ⟨_, rfl⟩
    case zone zone accountId =>
      unfold getDnsRecordItems
      dsimp only
      split
      · exact ⟨_, rfl⟩
      · split
        · exact ⟨_, rfl⟩
        · split
          · exact ⟨_, rfl⟩
          · exact ⟨_, rfl⟩
    case teamMembers accountId cloudflareAccountId memberCount =>
      unfold getMemberItems
      dsimp only
      split
      · split
        · exact ⟨_, rfl⟩
        · exact ⟨_, rfl⟩
      · split
        · exact ⟨_, rfl⟩
        · split
          · exact ⟨_, rfl⟩
          · exact ⟨_, rfl⟩
    case dnsRecord r => exact ⟨[], rfl⟩
    case loading => exact ⟨[], rfl⟩
    case error m => exact ⟨[], rfl⟩
    case empty m => exact ⟨[], rfl⟩
    case member m a cf zm => exact ⟨[], rfl⟩

/-- C4: for every requested node and every collaborator behaviour
(including every thrown error), `getChildren` returns a node list and
never propagates an exception; and whenever the returned list contains an
error placeholder, it is exactly that one placeholder. -/
theorem c4_getChildren_total :
    (∀ (env : Env) (st : ProviderState) (element : Option TreeItemType),
      ∃ items, (getChildren env st element).1 = .ok items) ∧
    (∀ (env : Env) (st : ProviderState) (element : Option TreeItemType)
        (items : List TreeItemType) (e : TreeItemType),
      (getChildren env st element).1 = .ok items →
      e ∈ items → e.isErrorItem = true → items = [e]) := by
  refine ⟨getChildren_isOk, ?_⟩
  intro env st element items e h he hiserr
  have hshape : (∃ x, items = [x]) ∨ (∀ x ∈ items, x.isErrorItem = false) := by
    rcases element with _ | el
    · exact getAccountItems_ok_shape env items h
    · cases el
      case account account => exact getZoneItems_ok_shape env st account items h
      case zone zone accountId =>
        exact getDnsRecordItems_ok_shape env st zone accountId items h
      case teamMembers accountId cloudflareAccountId memberCount =>
        exact getMemberItems_ok_shape env st accountId cloudflareAccountId items h
      case dnsRecord r =>
        injection h with h1
        subst h1
        exact Or.inr (fun x hx => absurd hx (List.not_mem_nil x))
      case loading =>
        injection h with h1
        subst h1
        exact Or.inr (fun x hx => absurd hx (List.not_mem_nil x))
      case error m =>
        injection h with h1
        subst h1
        exact Or.inr (fun x hx => absurd hx (List.not_mem_nil x))
      case empty m =>
        injection h with h1
        subst h1
        exact Or.inr (fun x hx => absurd hx (List.not_mem_nil x))
      case member m a cf zm =>
        injection h with h1
        subst h1
        exact Or.inr (fun x hx => absurd hx (List.not_mem_nil x))
  rcases hshape with ⟨x, rfl⟩ | hno
  · rcases List.mem_singleton.1 he with rfl
    rfl
  · rw [hno e he] at hiserr
    cases hiserr

/-- C4 witness: the theorem applied to the empty-state root request and to
an error-returning environment. -/
theorem c4_getChildren_total_witness :
    (∃ items, (getChildren envNoToken {} none).1 = .ok items) ∧
    ((getChildren envNoToken {} (some (.account accA))).1 =
        .ok [.error "Token not found"] ∧
      TreeItemType.error "Token not found" ∈ [TreeItemType.error "Token not found"] ∧
      (TreeItemType.error "Token not found").isErrorItem = true ∧
      [TreeItemType.error "Token not found"] = [TreeItemType.error "Token not found"]) :=
  ⟨c4_getChildren_total.1 envNoToken {} none,
   rfl, List.mem_singleton.2 rfl, rfl,
   c4_getChildren_total.2 envNoToken {} (some (.account accA))
     [TreeItemType.error "Token not found"] (TreeItemType.error "Token not found")
     rfl (List.mem_singleton.2 rfl) rfl⟩

/-! ### C8: member fetch failure degrades to count 0 -/

/-- C8: for an account load (zones cache miss, guard unset, members cache
unpopulated) whose zone fetch succeeds and whose member fetch throws,
`getChildren(account)` still succeeds: every (enriched) zone appears as a
zone node, the Team Members node reports count 0, no error placeholder is
returned, the zones cache is populated, and the members cache stays
unpopulated. -/
theorem c8_member_fetch_failure (env : Env) (st : ProviderState) (account : Account)
    (awt : AccountWithToken) (zs : List Zone) (emsg : String)
    (hmiss : mapHas st.zonesCache account.id = false)
    (hguard : st.loadingAccounts.contains account.id = false)
    (hmem0 : mapGet st.membersCache account.id = none)
    (htok : env.getAccountWithToken account.id = .ok (some awt))
    (hz : env.getZones awt.token account.cloudflareAccountId = .ok zs)
    (hm : env.getMembers awt.token account.cloudflareAccountId = .error emsg) :
    ∃ items st2, getZoneItems env st account = (.ok items, st2) ∧
      TreeItemType.teamMembers account.id account.cloudflareAccountId 0 ∈ items ∧
      (∀ z ∈ (if env.showRecordCount then
          enrichZones env awt.token account.cloudflareAccountId zs else zs),
        TreeItemType.zone z account.id ∈ items) ∧
      (∀ e ∈ items, e.isErrorItem = false) ∧
      mapGet st2.zonesCache account.id =
        some (if env.showRecordCount then
          enrichZones env awt.token account.cloudflareAccountId zs else zs) ∧
      mapGet st2.membersCache account.id = none := by
  have h1 : ¬ (mapHas st.zonesCache account.id = true) := by simp [hmiss]
  have h2 : ¬ (st.loadingAccounts.contains account.id = true) := by
    simp only [hguard]
    decide
  unfold getZoneItems getZoneItemsTry
  rw [if_neg h1, if_neg h2, htok]
  dsimp only
  rw [hz]
  dsimp only
  rw [hm]
  dsimp only
  refine ⟨_, _, rfl, List.mem_append.2 (Or.inr (List.mem_singleton.2 rfl)), ?_, ?_, ?_, ?_⟩
  · intro z hz2
    refine List.mem_append.2 (Or.inl ?_)
    have hne : ¬ ((if env.showRecordCount then
        enrichZones env awt.token account.cloudflareAccountId zs else zs).length = 0) := by
      intro h0
      rw [List.length_eq_zero.1 h0] at hz2
      exact absurd hz2 (List.not_mem_nil z)
    rw [if_neg hne]
    exact List.mem_map.2 ⟨z, hz2, rfl⟩
  · intro e he
    rcases List.mem_append.1 he with hm2 | hm2
    · repeat' split at hm2
      all_goals
        first
          | (rcases List.mem_singleton.1 hm2 with rfl; rfl)
          | (rcases List.mem_map.1 hm2 with ⟨z, _, rfl⟩; rfl)
    · rcases List.mem_singleton.1 hm2 with rfl
      rfl
  · exact mapGet_mapSet_self _ _ _
  · exact hmem0

/-- A token bundle for account `"a"`. -/
def awtA : AccountWithToken :=
  { id := "a", name := "Account A", cloudflareAccountId := "cfa", token := "tok" }

/-- An environment where the zone fetch succeeds and the member fetch
throws. -/
def envC8 : Env :=
  { getAccounts := .ok [accA]
    getAccountWithToken := fun _ => .ok (some awtA)
    getZones := fun _ _ => .ok [zoneZ]
    getDnsRecords := fun _ _ _ => .ok []
    getDnsRecordCount := fun _ _ _ => .error "count fail"
    getMembers := fun _ _ => .error "members fail"
    showRecordCount := false
    visibleTypes := ["A", "AAAA", "CNAME", "MX", "TXT"] }

/-- C8 witness: the theorem applied to `envC8` on a fresh state. -/
theorem c8_member_fetch_failure_witness :
    (mapHas (ProviderState.zonesCache {}) "a" = false ∧
     (ProviderState.loadingAccounts {}).contains "a" = false ∧
     mapGet (ProviderState.membersCache {}) "a" = none ∧
     envC8.getAccountWithToken "a" = .ok (some awtA) ∧
     envC8.getZones "tok" "cfa" = .ok [zoneZ] ∧
     envC8.getMembers "tok" "cfa" = .error "members fail") ∧
    (∃ items st2, getZoneItems envC8 {} accA = (.ok items, st2) ∧
      TreeItemType.teamMembers "a" "cfa" 0 ∈ items ∧
      (∀ z ∈ (if envC8.showRecordCount then
          enrichZones envC8 "tok" "cfa" [zoneZ] else [zoneZ]),
        TreeItemType.zone z "a" ∈ items) ∧
      (∀ e ∈ items, e.isErrorItem = false) ∧
      mapGet st2.zonesCache "a" =
        some (if envC8.showRecordCount then
          enrichZones envC8 "tok" "cfa" [zoneZ] else [zoneZ]) ∧
      mapGet st2.membersCache "a" = none) :=
  ⟨⟨rfl, rfl, rfl, rfl, rfl, rfl⟩,
   c8_member_fetch_failure envC8 {} accA awtA [zoneZ] "members fail"
     rfl rfl rfl rfl rfl rfl⟩

/-! ### C9: per-zone record-count failures degrade, never fail the load -/

/-- C9: with record-count display enabled, an account load (cache miss,
guard unset, token found, zone fetch successful) always succeeds and
caches every zone in enriched form, where a zone whose count fetch throws
gets `recordCount = none` ("unknown") and a zone whose count fetch
succeeds with n gets `recordCount = some n` — independently per zone and
regardless of the member-fetch outcome. -/
theorem c9_record_count_best_effort (env : Env) (st : ProviderState) (account : Account)
    (awt : AccountWithToken) (zs : List Zone)
    (hmiss : mapHas st.zonesCache account.id = false)
    (hguard : st.loadingAccounts.contains account.id = false)
    (htok : env.getAccountWithToken account.id = .ok (some awt))
    (hz : env.getZones awt.token account.cloudflareAccountId = .ok zs)
    (hsrc : env.showRecordCount = true) :
    ∃ items st2, getZoneItems env st account = (.ok items, st2) ∧
      mapGet st2.zonesCache account.id =
        some (enrichZones env awt.token account.cloudflareAccountId zs) ∧
      (∀ z ∈ zs, ∀ msg,
        env.getDnsRecordCount awt.token account.cloudflareAccountId z.id = .error msg →
        (enrichZone env awt.token account.cloudflareAccountId z).recordCount = none) ∧
      (∀ z ∈ zs, ∀ n,
        env.getDnsRecordCount awt.token account.cloudflareAccountId z.id = .ok n →
        (enrichZone env awt.token account.cloudflareAccountId z).recordCount = some n) ∧
      (∀ e ∈ items, e.isErrorItem = false) := by
  have h1 : ¬ (mapHas st.zonesCache account.id = true) := by simp [hmiss]
  have h2 : ¬ (st.loadingAccounts.contains account.id = true) := by
    simp only [hguard]
    decide
  have hpt1 : ∀ z ∈ zs, ∀ msg,
      env.getDnsRecordCount awt.token account.cloudflareAccountId z.id = .error msg →
      (enrichZone env awt.token account.cloudflareAccountId z).recordCount = none := by
    intro z _ msg hmsg
    unfold enrichZone
    rw [hmsg]
    rfl
  have hpt2 : ∀ z ∈ zs, ∀ n,
      env.getDnsRecordCount awt.token account.cloudflareAccountId z.id = .ok n →
      (enrichZone env awt.token account.cloudflareAccountId z).recordCount = some n := by
    intro z _ n hn
    unfold enrichZone
    rw [hn]
    rfl
  have hnoerr : ∀ (tm : TreeItemType) (zs2 : List Zone),
      ∀ e ∈ ((if zs2.length = 0 then [TreeItemType.empty "No domains found"]
        else zs2.map (fun z => TreeItemType.zone z account.id)) ++ [tm]),
      tm.isErrorItem = false → e.isErrorItem = false := by
    intro tm zs2 e he htm
    rcases List.mem_append.1 he with hm2 | hm2
    · split at hm2
      · rcases List.mem_singleton.1 hm2 with rfl
        rfl
      · rcases List.mem_map.1 hm2 with ⟨z, _, rfl⟩
        rfl
    · rcases List.mem_singleton.1 hm2 with rfl
      exact htm
  unfold getZoneItems getZoneItemsTry
  rw [if_neg h1, if_neg h2, htok]
  dsimp only
  rw [hz]
  dsimp only
  rw [if_pos hsrc]
  cases hm : env.getMembers awt.token account.cloudflareAccountId with
  | ok members =>
    dsimp only
    exact ⟨_, _, rfl, mapGet_mapSet_self _ _ _, hpt1, hpt2,
      fun e he => hnoerr _ _ e he rfl⟩
  | error e2 =>
    dsimp only
    exact ⟨_, _, rfl, mapGet_mapSet_self _ _ _, hpt1, hpt2,
      fun e he => hnoerr _ _ e he rfl⟩

/-- A second zone of account `"a"`. -/
def zoneZ2 : Zone :=
  { id := "z2", name := "second.com", status := "active", paused := false, accountId := "a" }

/-- An environment where zone `"z"`'s record count succeeds with 5 and
zone `"z2"`'s count fetch throws. -/
def envC9 : Env :=
  { getAccounts := .ok [accA]
    getAccountWithToken := fun _ => .ok (some awtA)
    getZones := fun _ _ => .ok [zoneZ, zoneZ2]
    getDnsRecords := fun _ _ _ => .ok []
    getDnsRecordCount := fun _ _ zid => if zid == "z" then .ok 5 else .error "count fail"
    getMembers := fun _ _ => .ok []
    showRecordCount := true
    visibleTypes := ["A", "AAAA", "CNAME", "MX", "TXT"] }

/-- C9 witness: the theorem applied to `envC9` (one zone's count succeeds
with 5, the other's throws) on a fresh state, plus the concrete enriched
values. -/
theorem c9_record_count_best_effort_witness :
    (mapHas (ProviderState.zonesCache {}) "a" = false ∧
     (ProviderState.loadingAccounts {}).contains "a" = false ∧
     envC9.getAccountWithToken "a" = .ok (some awtA) ∧
     envC9.getZones "tok" "cfa" = .ok [zoneZ, zoneZ2] ∧
     envC9.showRecordCount = true) ∧
    (∃ items st2, getZoneItems envC9 {} accA = (.ok items, st2) ∧
      mapGet st2.zonesCache "a" = some (enrichZones envC9 "tok" "cfa" [zoneZ, zoneZ2]) ∧
      (∀ z ∈ [zoneZ, zoneZ2], ∀ msg,
        envC9.getDnsRecordCount "tok" "cfa" z.id = .error msg →
        (enrichZone envC9 "tok" "cfa" z).recordCount = none) ∧
      (∀ z ∈ [zoneZ, zoneZ2], ∀ n,
        envC9.getDnsRecordCount "tok" "cfa" z.id = .ok n →
        (enrichZone envC9 "tok" "cfa" z).recordCount = some n) ∧
      (∀ e ∈ items, e.isErrorItem = false)) ∧
    (enrichZone envC9 "tok" "cfa" zoneZ).recordCount = some 5 ∧
    (enrichZone envC9 "tok" "cfa" zoneZ2).recordCount = none :=
  ⟨⟨rfl, rfl, rfl, rfl, rfl⟩,
   c9_record_count_best_effort envC9 {} accA awtA [zoneZ, zoneZ2] rfl rfl rfl rfl rfl,
   rfl, rfl⟩

/-! ### C5: empty-but-successful results -/

theorem mapHas_of_mapGet_some (m : List (String × α)) (k : String) (v : α)
    (h : mapGet m k = some v) : mapHas m k = true := by
  cases hb : mapHas m k with
  | false =>
    rw [(mapHas_eq_false_iff_mapGet m k).1 hb] at h
    cases h
  | true => rfl

/-- A state whose records cache holds an empty list for key `"a:z"`. -/
def stRecEmpty : ProviderState := { recordsCache := [("a:z", [])] }

/-- A state whose zones cache holds an empty list for account `"a"`. -/
def stZonesEmpty : ProviderState := { zonesCache := [("a", [])] }

/-- A state whose members cache holds an empty list for account `"a"`. -/
def stMembersEmpty : ProviderState := { membersCache := [("a", [])] }

/-- C5 counterexample: with the records cache holding an empty list for
`"a:z"`, `getDnsRecordItems` returns a bare empty list — no "empty"
placeholder — contradicting the claim that a cached empty result is
rendered the same as a fetched one. -/
theorem c5_counterexample :
    mapGet stRecEmpty.recordsCache "a:z" = some [] ∧
    (getDnsRecordItems envC8 stRecEmpty zoneZ "a").1 = .ok [] :=
  ⟨rfl, rfl⟩

/-- C5 amended: a successful fetch of zero zones / records / members
surfaces the corresponding "empty" placeholder, and an empty members
cache hit does too; but an empty zones cache hit yields only the Team
Members node with no placeholder, and a records cache hit yields the
bare filtered list (empty when the cached list is empty). -/
theorem c5_amended :
    (∀ (env : Env) (st : ProviderState) (account : Account) (awt : AccountWithToken),
      mapHas st.zonesCache account.id = false →
      st.loadingAccounts.contains account.id = false →
      env.getAccountWithToken account.id = .ok (some awt) →
      env.getZones awt.token account.cloudflareAccountId = .ok [] →
      ∃ st2 mc, getZoneItems env st account =
        (.ok [.empty "No domains found",
              .teamMembers account.id account.cloudflareAccountId mc], st2)) ∧
    (∀ (env : Env) (st : ProviderState) (zone : Zone) (accountId : String)
        (awt : AccountWithToken),
      mapHas st.recordsCache (accountId ++ ":" ++ zone.id) = false →
      st.loadingZones.contains (accountId ++ ":" ++ zone.id) = false →
      env.getAccountWithToken accountId = .ok (some awt) →
      env.getDnsRecords awt.token accountId zone.id = .ok [] →
      ∃ st2, getDnsRecordItems env st zone accountId =
        (.ok [.empty "No DNS records"], st2)) ∧
    (∀ (env : Env) (st : ProviderState) (accountId cfId : String)
        (awt : AccountWithToken),
      mapHas st.membersCache accountId = false →
      st.loadingMembers.contains accountId = false →
      env.getAccountWithToken accountId = .ok (some awt) →
      env.getMembers awt.token cfId = .ok [] →
      ∃ st2, getMemberItems env st accountId cfId =
        (.ok [.empty "No team members"], st2)) ∧
    (∀ (env : Env) (st : ProviderState) (accountId cfId : String),
      mapGet st.membersCache accountId = some [] →
      getMemberItems env st accountId cfId = (.ok [.empty "No team members"], st)) ∧
    (∀ (env : Env) (st : ProviderState) (account : Account),
      mapGet st.zonesCache account.id = some [] →
      getZoneItems env st account =
        (.ok [.teamMembers account.id account.cloudflareAccountId
          (((mapGet st.membersCache account.id).map List.length).getD 0)], st)) ∧
    (∀ (env : Env) (st : ProviderState) (zone : Zone) (accountId : String)
        (rs : List DnsRecord),
      mapGet st.recordsCache (accountId ++ ":" ++ zone.id) = some rs →
      getDnsRecordItems env st zone accountId =
        (.ok (filterAndSortRecords env rs), st)) := by
  refine ⟨?_, ?_, ?_, ?_, ?_, ?_⟩
  · intro env st account awt hmiss hguard htok hz
    have h1 : ¬ (mapHas st.zonesCache account.id = true) := by simp [hmiss]
    have h2 : ¬ (st.loadingAccounts.contains account.id = true) := by
      simp only [hguard]
      decide
    unfold getZoneItems getZoneItemsTry
    rw [if_neg h1, if_neg h2, htok]
    dsimp only
    rw [hz]
    dsimp only
    have hze : (if env.showRecordCount = true then
        enrichZones env awt.token account.cloudflareAccountId [] else []) =
        ([] : List Zone) := by
      cases hsrc : env.showRecordCount <;> simp [hsrc, enrichZones]
    rw [hze]
    cases hm : env.getMembers awt.token account.cloudflareAccountId with
    | ok ms =>
      dsimp only
      exact ⟨_, ms.length, rfl⟩
    | error e =>
      dsimp only
      exact ⟨_, 0, rfl⟩
  · intro env st zone accountId awt hmiss hguard htok hrec
    have h1 : ¬ (mapHas st.recordsCache (accountId ++ ":" ++ zone.id) = true) := by
      simp [hmiss]
    have h2 : ¬ (st.loadingZones.contains (accountId ++ ":" ++ zone.id) = true) := by
      simp only [hguard]
      decide
    unfold getDnsRecordItems getDnsRecordItemsTry
    dsimp only
    rw [if_neg h1, if_neg h2, htok]
    dsimp only
    rw [hrec]
    exact ⟨_, rfl⟩
  · intro env st accountId cfId awt hmiss hguard htok hmem
    have h1 : ¬ (mapHas st.membersCache accountId = true) := by simp [hmiss]
    have h2 : ¬ (st.loadingMembers.contains accountId = true) := by
      simp only [hguard]
      decide
    unfold getMemberItems getMemberItemsTry
    dsimp only
    rw [if_neg h1, if_neg h2, htok]
    dsimp only
    rw [hmem]
    exact ⟨_, rfl⟩
  · intro env st accountId cfId hget
    unfold getMemberItems
    dsimp only
    rw [if_pos (mapHas_of_mapGet_some _ _ _ hget), hget]
    rfl
  · intro env st account hget
    unfold getZoneItems
    rw [if_pos (mapHas_of_mapGet_some _ _ _ hget), hget]
    rfl
  · intro env st zone accountId rs hget
    unfold getDnsRecordItems
    dsimp only
    rw [if_pos (mapHas_of_mapGet_some _ _ _ hget), hget]
    rfl

/-- An environment whose fetches all succeed with empty collections. -/
def envEmpty : Env :=
  { getAccounts := .ok []
    getAccountWithToken := fun _ => .ok (some awtA)
    getZones := fun _ _ => .ok []
    getDnsRecords := fun _ _ _ => .ok []
    getDnsRecordCount := fun _ _ _ => .ok 0
    getMembers := fun _ _ => .ok []
    showRecordCount := false
    visibleTypes := ["A", "AAAA", "CNAME", "MX", "TXT"] }

/-- C5 amended, witness: each conjunct applied at a concrete input. -/
theorem c5_amended_witness :
    (mapHas (ProviderState.zonesCache {}) "a" = false ∧
     envEmpty.getZones "tok" "cfa" = .ok [] ∧
     envEmpty.getDnsRecords "tok" "a" "z" = .ok [] ∧
     envEmpty.getMembers "tok" "cfa" = .ok [] ∧
     mapGet stMembersEmpty.membersCache "a" = some [] ∧
     mapGet stZonesEmpty.zonesCache "a" = some [] ∧
     mapGet stRecEmpty.recordsCache "a:z" = some []) ∧
    (∃ st2 mc, getZoneItems envEmpty {} accA =
      (.ok [.empty "No domains found", .teamMembers "a" "cfa" mc], st2)) ∧
    (∃ st2, getDnsRecordItems envEmpty {} zoneZ "a" =
      (.ok [.empty "No DNS records"], st2)) ∧
    (∃ st2, getMemberItems envEmpty {} "a" "cfa" =
      (.ok [.empty "No team members"], st2)) ∧
    getMemberItems envEmpty stMembersEmpty "a" "cfa" =
      (.ok [.empty "No team members"], stMembersEmpty) ∧
    getZoneItems envEmpty stZonesEmpty accA =
      (.ok [.teamMembers "a" "cfa"
        (((mapGet stZonesEmpty.membersCache "a").map List.length).getD 0)],
        stZonesEmpty) ∧
    getDnsRecordItems envEmpty stRecEmpty zoneZ "a" =
      (.ok (filterAndSortRecords envEmpty []), stRecEmpty) :=
  ⟨⟨rfl, rfl, rfl, rfl, rfl, rfl, rfl⟩,
   c5_amended.1 envEmpty {} accA awtA rfl rfl rfl rfl,
   c5_amended.2.1 envEmpty {} zoneZ "a" awtA rfl rfl rfl rfl,
   c5_amended.2.2.1 envEmpty {} "a" "cfa" awtA rfl rfl rfl rfl,
   c5_amended.2.2.2.1 envEmpty stMembersEmpty "a" "cfa" rfl,
   c5_amended.2.2.2.2.1 envEmpty stZonesEmpty accA rfl,
   c5_amended.2.2.2.2.2 envEmpty stRecEmpty zoneZ "a" [] rfl⟩

/-! ### C3: loading-guard / cache exclusivity -/

theorem mapHas_mapDelete_false (m : List (String × α)) (k x : String)
    (h : mapHas m x = false) : mapHas (mapDelete m k) x = false := by
  cases hb : mapHas (mapDelete m k) x with
  | false => rfl
  | true =>
    rw [mapHas_of_mapHas_mapDelete m k x hb] at h
    cases h

theorem mapHas_filter_false (m : List (String × α)) (f : String × α → Bool)
    (x : String) (h : mapHas m x = false) : mapHas (m.filter f) x = false := by
  cases hb : mapHas (m.filter f) x with
  | false => rfl
  | true =>
    rw [mapHas_of_mapHas_filter m f x hb] at h
    cases h

/-- Exclusivity of loading guard and populated cache for the zones level
(`loadingAccounts` vs `zonesCache`) and the records level (`loadingZones`
vs `recordsCache`). -/
def ExclusiveState (p : ProviderState) : Prop :=
  (∀ a, p.loadingAccounts.contains a = true → mapHas p.zonesCache a = false) ∧
  (∀ k, p.loadingZones.contains k = true → mapHas p.recordsCache k = false)

theorem step_preserves_exclusive {s1 s2 : SysState} (hstep : Step s1 s2)
    (h : ExclusiveState s1.prov) : ExclusiveState s2.prov := by
  obtain ⟨hz, hr⟩ := h
  cases hstep with
  | gziStart p ts account hc hl =>
    refine ⟨fun a ha => ?_, hr⟩
    rcases contains_setAdd _ _ _ ha with h1 | rfl
    · exact hz a h1
    · exact hc
  | gziTokenThrow p l1 l2 account =>
    exact ⟨fun a ha => hz a (contains_setDelete _ _ _ ha).1, hr⟩
  | gziTokenNone p l1 l2 account => exact ⟨hz, hr⟩
  | gziTokenSome p l1 l2 account token => exact ⟨hz, hr⟩
  | gziZonesErr p l1 l2 account token =>
    exact ⟨fun a ha => hz a (contains_setDelete _ _ _ ha).1, hr⟩
  | gziZonesOkCounts p l1 l2 account token zones => exact ⟨hz, hr⟩
  | gziZonesOkNoCounts p l1 l2 account token zones => exact ⟨hz, hr⟩
  | gziCountsDone p l1 l2 account token zones cnt => exact ⟨hz, hr⟩
  | gziMembersOk p l1 l2 account token zones members =>
    refine ⟨fun a ha => ?_, hr⟩
    obtain ⟨ha1, hane⟩ := contains_setDelete _ _ _ ha
    rw [mapHas_mapSet_ne _ _ _ _ hane]
    exact hz a ha1
  | gziMembersErr p l1 l2 account token zones =>
    refine ⟨fun a ha => ?_, hr⟩
    obtain ⟨ha1, hane⟩ := contains_setDelete _ _ _ ha
    rw [mapHas_mapSet_ne _ _ _ _ hane]
    exact hz a ha1
  | gdriStart p ts zone accountId hc hl =>
    refine ⟨hz, fun k hk => ?_⟩
    rcases contains_setAdd _ _ _ hk with h1 | rfl
    · exact hr k h1
    · exact hc
  | gdriTokenThrow p l1 l2 zone accountId =>
    exact ⟨hz, fun k hk => hr k (contains_setDelete _ _ _ hk).1⟩
  | gdriTokenNone p l1 l2 zone accountId => exact ⟨hz, hr⟩
  | gdriTokenSome p l1 l2 zone accountId token => exact ⟨hz, hr⟩
  | gdriRecordsErr p l1 l2 zone accountId token =>
    exact ⟨hz, fun k hk => hr k (contains_setDelete _ _ _ hk).1⟩
  | gdriRecordsOk p l1 l2 zone accountId token records =>
    refine ⟨hz, fun k hk => ?_⟩
    obtain ⟨hk1, hkne⟩ := contains_setDelete _ _ _ hk
    rw [mapHas_mapSet_ne _ _ _ _ hkne]
    exact hr k hk1
  | gmiStart p ts accountId cloudflareAccountId hc hl => exact ⟨hz, hr⟩
  | gmiTokenThrow p l1 l2 accountId cloudflareAccountId => exact ⟨hz, hr⟩
  | gmiTokenNone p l1 l2 accountId cloudflareAccountId => exact ⟨hz, hr⟩
  | gmiTokenSome p l1 l2 accountId cloudflareAccountId token => exact ⟨hz, hr⟩
  | gmiMembersErr p l1 l2 accountId cloudflareAccountId token => exact ⟨hz, hr⟩
  | gmiMembersOk p l1 l2 accountId cloudflareAccountId token members => exact ⟨hz, hr⟩
  | refreshStep p ts => exact ⟨fun a _ => rfl, fun k _ => rfl⟩
  | refreshAccountStep p ts accountId =>
    exact ⟨fun a ha => mapHas_mapDelete_false _ _ _ (hz a ha),
           fun k hk => mapHas_filter_false _ _ _ (hr k hk)⟩
  | refreshZoneStep p ts accountId zoneId =>
    exact ⟨hz, fun k hk => mapHas_mapDelete_false _ _ _ (hr k hk)⟩

/-- The provider state after `getMemberItems("a")` has set its guard and
suspended on the token lookup. -/
def c3P1 : ProviderState := { loadingMembers := ["a"] }

/-- The provider state after `getZoneItems` for account `"a"` has also set
its guard. -/
def c3P2 : ProviderState := { loadingAccounts := ["a"], loadingMembers := ["a"] }

/-- The suspension-point state in which account `"a"` is simultaneously in
`loadingMembers` (its `getMemberItems` load is still in flight) and
populated in `membersCache` (a concurrent `getZoneItems` prefetched the
members). -/
def c3Bad : SysState :=
  ⟨{ zonesCache := [("a", [])], membersCache := [("a", [])],
     loadingMembers := ["a"] },
   [PendingTask.gmiToken "a" "cfa"]⟩

/-- C3 counterexample: a reachable suspension-point state in which the
members key of account `"a"` is simultaneously in its loading-guard set
and a key of the populated members cache, refuting the exclusivity claim:
`getMemberItems` suspends after setting the guard, then a full
`getZoneItems` run on the same account writes the members cache without
touching `loadingMembers`. -/
theorem c3_counterexample :
    Reachable c3Bad ∧
    c3Bad.prov.loadingMembers.contains "a" = true ∧
    mapHas c3Bad.prov.membersCache "a" = true := by
  refine ⟨?_, rfl, rfl⟩
  have t1 : Step SysState.init ⟨c3P1, [PendingTask.gmiToken "a" "cfa"]⟩ :=
    Step.gmiStart {} [] "a" "cfa" rfl rfl
  have t2 : Step ⟨c3P1, [PendingTask.gmiToken "a" "cfa"]⟩
      ⟨c3P2, [PendingTask.gziToken accA, PendingTask.gmiToken "a" "cfa"]⟩ :=
    Step.gziStart c3P1 [PendingTask.gmiToken "a" "cfa"] accA rfl rfl
  have t3 : Step ⟨c3P2, [PendingTask.gziToken accA, PendingTask.gmiToken "a" "cfa"]⟩
      ⟨c3P2, [PendingTask.gziZones accA "tok", PendingTask.gmiToken "a" "cfa"]⟩ :=
    Step.gziTokenSome c3P2 [] [PendingTask.gmiToken "a" "cfa"] accA "tok"
  have t4 : Step ⟨c3P2, [PendingTask.gziZones accA "tok", PendingTask.gmiToken "a" "cfa"]⟩
      ⟨c3P2, [PendingTask.gziMembers accA "tok" [], PendingTask.gmiToken "a" "cfa"]⟩ :=
    Step.gziZonesOkNoCounts c3P2 [] [PendingTask.gmiToken "a" "cfa"] accA "tok" []
  have t5 : Step ⟨c3P2, [PendingTask.gziMembers accA "tok" [], PendingTask.gmiToken "a" "cfa"]⟩
      c3Bad :=
    Step.gziMembersOk c3P2 [] [PendingTask.gmiToken "a" "cfa"] accA "tok" [] []
  exact ((((Relation.ReflTransGen.refl.tail t1).tail t2).tail t3).tail t4).tail t5

/-- C3 amended: at every reachable suspension-point state, exclusivity
does hold for the zones level and the records level: a key in
`loadingAccounts` is never a populated `zonesCache` key, and a key in
`loadingZones` is never a populated `recordsCache` key.  (For the members
level it fails, per the counterexample: `getZoneItems` writes
`membersCache` without consulting `loadingMembers`.) -/
theorem c3_amended (s : SysState) (h : Reachable s) :
    (∀ a, s.prov.loadingAccounts.contains a = true →
      mapHas s.prov.zonesCache a = false) ∧
    (∀ k, s.prov.loadingZones.contains k = true →
      mapHas s.prov.recordsCache k = false) := by
  unfold Reachable at h
  have hinv : ExclusiveState s.prov := by
    induction h with
    | refl =>
      exact ⟨fun a ha => Bool.noConfusion ha, fun k hk => Bool.noConfusion hk⟩
    | tail hteps hstep ih => exact step_preserves_exclusive hstep ih
  exact hinv

/-- C3 amended, witness: the invariant instantiated at the freshly
constructed provider. -/
theorem c3_amended_witness :
    Reachable SysState.init ∧
    ((∀ a, SysState.init.prov.loadingAccounts.contains a = true →
       mapHas SysState.init.prov.zonesCache a = false) ∧
     (∀ k, SysState.init.prov.loadingZones.contains k = true →
       mapHas SysState.init.prov.recordsCache k = false)) :=
  ⟨Relation.ReflTransGen.refl, c3_amended SysState.init Relation.ReflTransGen.refl⟩

end TadaCloud
